import Mathlib

/-!
# Track control panel layout (TrackInfo.cpp)

A shallow embedding of the vertical layout functions of src/TrackInfo.cpp:
the line tables, totalTCPLines, CalcItemY, CalcBottomItemY,
MinimumTrackHeight, HideTopItem, DrawItems, DefaultTrackHeight, and the
accessors GetCloseBoxRect, GetTitleBarRect and GetMuteSoloRect with their
horizontal bounds.

Conventions of the embedding.
* C++ int values are modelled by Int.  Signed overflow is undefined
  behaviour in C++, so the model describes the executions without signed
  overflow.  Conversions to unsigned are modelled by reduction modulo 2^32.
* Item masks (unsigned) are modelled by Nat with bitwise and / or.
* An iterator into a vector is modelled by the suffix of the list that
  starts at the iterator; the end iterator is the empty suffix.
  Dereferencing the end iterator has no defined result and is modelled by
  none.
* Constants that are declared in headers outside this file (item flags,
  kTrackInfoBtnSize, kTopMargin, kBottomMargin, TrackView::DefaultHeight,
  kHighestBottomItem) are parameters of the definitions that use them.
* A rectangle passed by reference (dest) is an argument of the model and
  its value after the call is the result; a default-constructed wxRect is
  the zero rectangle.
* The file-scope variable commonTrackTCPBottomLines and the function-local
  static of commonTrackTCPLines() are passed explicitly to the functions
  that read them; their initial values are given as definitions.
-/

namespace TrackInfo

/-- A rectangle as in wxRect: position and size, all of C++ type int. -/
structure wxRect where
  x : Int
  y : Int
  width : Int
  height : Int
  deriving DecidableEq

/-- One line of the track control panel (TrackInfo::TCPLine).  The field
drawFunction records whether the function pointer is non-null. -/
structure TCPLine where
  items : Nat
  height : Int
  extraSpace : Int
  drawFunction : Bool
  deriving DecidableEq

/-- A vector of lines (TrackInfo::TCPLines). -/
abbrev TCPLines := List TCPLine

/-- Conversion of an int value to unsigned (32 bits). -/
def toUnsigned (v : Int) : Nat := (v % 2 ^ 32).toNat

/-- The table of commonTrackTCPLines(); the flag da selects the
EXPERIMENTAL_DA branch of the preprocessor conditional. -/
def commonTrackTCPLines (da : Bool) (kItemBarButtons : Nat) (kTrackInfoBtnSize : Int) :
    TCPLines :=
  if da then [⟨kItemBarButtons, kTrackInfoBtnSize, 4, true⟩]
  else [⟨kItemBarButtons, kTrackInfoBtnSize, 0, true⟩]

/-- The table defaultCommonTrackTCPBottomLines, the initial value of
commonTrackTCPBottomLines: items for the bottom of the panel, listed
bottom-upwards. -/
def defaultCommonTrackTCPBottomLines (kItemSyncLock kItemMinimize : Nat)
    (kTrackInfoBtnSize : Int) : TCPLines :=
  [⟨kItemSyncLock ||| kItemMinimize, kTrackInfoBtnSize, 0, true⟩]

/-- The loop body of totalTCPLines, on the pair (total, lastExtra). -/
def totalTCPLines.step (acc : Int × Int) (line : TCPLine) : Int × Int :=
  let lastExtra := line.extraSpace
  (acc.1 + (line.height + lastExtra), lastExtra)

/-- The function totalTCPLines. -/
def totalTCPLines (lines : TCPLines) (omitLastExtra : Bool) : Int :=
  let r := lines.foldl totalTCPLines.step (0, 0)
  if omitLastExtra then r.1 - r.2 else r.1

/-- The while loop of CalcItemY: from the running y and the iterator
pLines, the final y and the final iterator. -/
def CalcItemY.scan (iItem : Nat) : Int → TCPLines → Int × TCPLines
  | y, [] => (y, [])
  | y, line :: rest =>
    if line.items &&& iItem = 0 then
      CalcItemY.scan iItem (y + (line.height + line.extraSpace)) rest
    else (y, line :: rest)

/-- The function TrackInfo::CalcItemY: the y value and the height. -/
def CalcItemY (lines : TCPLines) (iItem : Nat) : Int × Int :=
  let r := CalcItemY.scan iItem 0 lines
  let height := match r.2 with
    | [] => 0
    | line :: _ => line.height
  (r.1, height)

/-- The while loop of CalcBottomItemY. -/
def CalcBottomItemY.scan (iItem : Nat) : Int → TCPLines → Int × TCPLines
  | y, [] => (y, [])
  | y, line :: rest =>
    if line.items &&& iItem = 0 then
      CalcBottomItemY.scan iItem (y - (line.height + line.extraSpace)) rest
    else (y, line :: rest)

/-- The function CalcBottomItemY: the y value and the height.  The return
statement reads pLines->height without a test against lines.end(); at the
end iterator that read has no defined result, which is none here. -/
def CalcBottomItemY (lines : TCPLines) (iItem : Nat) (height : Int) : Option (Int × Int) :=
  let r := CalcBottomItemY.scan iItem height lines
  let y := match r.2 with
    | [] => r.1
    | line :: _ => r.1 - (line.height + line.extraSpace)
  match r.2 with
  | [] => none
  | line :: _ => some (y, line.height)

/-- The function TrackInfo::MinimumTrackHeight (unsigned arithmetic). -/
def MinimumTrackHeight (commonLines bottomLines : TCPLines)
    (kTopMargin kBottomMargin : Int) : Nat :=
  let height : Int := 0
  let height := match commonLines with
    | [] => height
    | front :: _ => height + front.height
  let height := match bottomLines with
    | [] => height
    | front :: _ => height + front.height
  toUnsigned (height + kTopMargin + kBottomMargin + 1)

/-- The function TrackInfo::HideTopItem, reading the bottom lines
commonTrackTCPBottomLines and the mask TCPLine::kHighestBottomItem. -/
def HideTopItem (bottomLines : TCPLines) (kHighestBottomItem : Nat)
    (rect subRect : wxRect) (allowance : Int) : Option Bool :=
  match CalcBottomItemY bottomLines kHighestBottomItem rect.height with
  | none => none
  | some r =>
    let limit := r.1
    some (decide (subRect.y + subRect.height - allowance ≥ rect.y + limit))

/-- What one iteration of a loop of DrawItems does: the item rectangle it
builds, and whether the draw function of the line is called with it. -/
structure DrawStep where
  itemRect : wxRect
  drawn : Bool
  deriving DecidableEq

/-- The first loop of TrackInfo::DrawItems (top lines), from the running
yy.  HideTopItem is called with its declared default allowance, 0. -/
def DrawItems.topPass (bottomLines : TCPLines) (kHighestBottomItem : Nat) (rect : wxRect) :
    Int → TCPLines → Option (List DrawStep)
  | _, [] => some []
  | yy, line :: rest =>
    let itemRect : wxRect := ⟨rect.x, rect.y + yy, rect.width, line.height⟩
    match HideTopItem bottomLines kHighestBottomItem rect itemRect 0 with
    | none => none
    | some hide =>
      match DrawItems.topPass bottomLines kHighestBottomItem rect
          (yy + (line.height + line.extraSpace)) rest with
      | none => none
      | some steps => some (⟨itemRect, !hide && line.drawFunction⟩ :: steps)

/-- The second loop of TrackInfo::DrawItems (bottom lines), from the
running yy: for each line, the item rectangle that its draw function is
called with, or none when the line has no draw function (no rectangle is
built then). -/
def DrawItems.bottomPass (rect : wxRect) : Int → TCPLines → List (Option wxRect)
  | _, [] => []
  | yy, line :: rest =>
    let yy := yy - (line.height + line.extraSpace)
    (if line.drawFunction then
      some ⟨rect.x, rect.y + yy, rect.width, line.height⟩
    else none) :: DrawItems.bottomPass rect yy rest

/-- The function TrackInfo::DrawItems (the overload that takes both line
lists): the steps of the top loop, then those of the bottom loop. -/
def DrawItems (commonBottomLines : TCPLines) (kHighestBottomItem : Nat) (rect : wxRect)
    (topLines bottomLines : TCPLines) : Option (List DrawStep × List (Option wxRect)) :=
  match DrawItems.topPass commonBottomLines kHighestBottomItem rect 0 topLines with
  | none => none
  | some top => some (top, DrawItems.bottomPass rect rect.height bottomLines)

/-- The function TrackInfo::DefaultTrackHeight. -/
def DefaultTrackHeight (bottomLines : TCPLines) (kTopMargin kBottomMargin DefaultHeight : Int)
    (topLines : TCPLines) : Nat :=
  let needed :=
    kTopMargin + kBottomMargin +
    totalTCPLines topLines true +
    totalTCPLines bottomLines false + 1
  toUnsigned (max needed DefaultHeight)

/-- The item flags and sizes, declared in headers outside this file, that
the line tables of the wave and note tracks use. -/
structure Constants where
  kItemBarButtons : Nat
  kItemStatusInfo1 : Nat
  kItemMute : Nat
  kItemSolo : Nat
  kItemGain : Nat
  kItemPan : Nat
  kItemVelocity : Nat
  kItemMidiControlsRect : Nat
  kItemStatusInfo2 : Nat
  kTrackInfoBtnSize : Int
  kTrackInfoSliderHeight : Int
  kTrackInfoSliderExtra : Int

/-- The lines that the constructor of WaveTrackTCPLines inserts at the end
of its copy of the common lines. -/
def waveTrackExtraLines (da : Bool) (c : Constants) : TCPLines :=
  (if da then
      [⟨c.kItemMute, c.kTrackInfoBtnSize + 1, 1, true⟩,
       ⟨c.kItemSolo, c.kTrackInfoBtnSize + 1, 2, true⟩]
    else [⟨c.kItemMute ||| c.kItemSolo, c.kTrackInfoBtnSize + 1, 2, true⟩]) ++
  [⟨c.kItemGain, c.kTrackInfoSliderHeight, c.kTrackInfoSliderExtra, true⟩,
   ⟨c.kItemPan, c.kTrackInfoSliderHeight, c.kTrackInfoSliderExtra, true⟩] ++
  (if da then []
    else [⟨c.kItemStatusInfo1, 12, 0, true⟩, ⟨c.kItemStatusInfo2, 12, 0, true⟩])

/-- The table waveTrackTCPLines: a copy of CommonTrackControls::StaticTCPLines()
with the wave track lines inserted at its end. -/
def waveTrackTCPLines (da : Bool) (c : Constants) : TCPLines :=
  commonTrackTCPLines da c.kItemBarButtons c.kTrackInfoBtnSize ++ waveTrackExtraLines da c

/-- The lines that the constructor of NoteTrackTCPLines inserts at the end
of its copy of the common lines; kMidiCellHeight is kTrackInfoBtnSize. -/
def noteTrackExtraLines (da : Bool) (c : Constants) : TCPLines :=
  (if da then
      [⟨c.kItemMute, c.kTrackInfoBtnSize + 1, 1, true⟩,
       ⟨c.kItemSolo, c.kTrackInfoBtnSize + 1, 0, true⟩]
    else [⟨c.kItemMute ||| c.kItemSolo, c.kTrackInfoBtnSize + 1, 0, true⟩]) ++
  [⟨c.kItemMidiControlsRect, c.kTrackInfoBtnSize * 4, 0, true⟩,
   ⟨c.kItemVelocity, c.kTrackInfoSliderHeight, c.kTrackInfoSliderExtra, true⟩]

/-- The table noteTrackTCPLines: a copy of CommonTrackControls::StaticTCPLines()
with the note track lines inserted at its end. -/
def noteTrackTCPLines (da : Bool) (c : Constants) : TCPLines :=
  commonTrackTCPLines da c.kItemBarButtons c.kTrackInfoBtnSize ++ noteTrackExtraLines da c

/-- The function TrackInfo::GetCloseBoxHorizontalBounds; dest is the
rectangle passed by reference, the result is its value afterwards. -/
def GetCloseBoxHorizontalBounds (kTrackInfoBtnSize : Int) (rect dest : wxRect) : wxRect :=
  ⟨rect.x, dest.y, kTrackInfoBtnSize, dest.height⟩

/-- The function TrackInfo::GetCloseBoxRect. -/
def GetCloseBoxRect (da : Bool) (kItemBarButtons : Nat) (kTrackInfoBtnSize : Int)
    (rect dest : wxRect) : wxRect :=
  let dest := GetCloseBoxHorizontalBounds kTrackInfoBtnSize rect dest
  let results := CalcItemY (commonTrackTCPLines da kItemBarButtons kTrackInfoBtnSize)
    kItemBarButtons
  ⟨dest.x, rect.y + results.1, dest.width, results.2⟩

/-- The constant TitleSoloBorderOverlap. -/
def TitleSoloBorderOverlap : Int := 1

/-- The function TrackInfo::GetTitleBarHorizontalBounds; the local closeRect
starts as the default rectangle. -/
def GetTitleBarHorizontalBounds (kTrackInfoBtnSize : Int) (rect dest : wxRect) : wxRect :=
  let closeRect := GetCloseBoxHorizontalBounds kTrackInfoBtnSize rect ⟨0, 0, 0, 0⟩
  let x := rect.x + closeRect.width + 1
  ⟨x, dest.y, rect.x + rect.width - x + TitleSoloBorderOverlap, dest.height⟩

/-- The function TrackInfo::GetTitleBarRect. -/
def GetTitleBarRect (da : Bool) (kItemBarButtons : Nat) (kTrackInfoBtnSize : Int)
    (rect dest : wxRect) : wxRect :=
  let dest := GetTitleBarHorizontalBounds kTrackInfoBtnSize rect dest
  let results := CalcItemY (commonTrackTCPLines da kItemBarButtons kTrackInfoBtnSize)
    kItemBarButtons
  ⟨dest.x, rect.y + results.1, dest.width, results.2⟩

/-- The function TrackInfo::GetNarrowMuteHorizontalBounds; the division of
int values truncates towards zero. -/
def GetNarrowMuteHorizontalBounds (rect dest : wxRect) : wxRect :=
  ⟨rect.x, dest.y, rect.width.tdiv 2 + 1, dest.height⟩

/-- The function TrackInfo::GetNarrowSoloHorizontalBounds. -/
def GetNarrowSoloHorizontalBounds (rect dest : wxRect) : wxRect :=
  let muteRect := GetNarrowMuteHorizontalBounds rect ⟨0, 0, 0, 0⟩
  ⟨rect.x + muteRect.width, dest.y, rect.width - muteRect.width + TitleSoloBorderOverlap,
    dest.height⟩

/-- The function TrackInfo::GetWideMuteSoloHorizontalBounds. -/
def GetWideMuteSoloHorizontalBounds (kTrackInfoBtnSize : Int) (rect dest : wxRect) : wxRect :=
  ⟨rect.x + kTrackInfoBtnSize - 3, dest.y, rect.width - 2 * kTrackInfoBtnSize + 6,
    dest.height⟩

/-- The local bSameRow of TrackInfo::GetMuteSoloRect. -/
def GetMuteSoloRect.bSameRow (lines : TCPLines) (kItemMute kItemSolo : Nat) : Bool :=
  let yMute := (CalcItemY lines kItemMute).1
  let ySolo := (CalcItemY lines kItemSolo).1
  decide (yMute = ySolo)

/-- The local bNarrow of TrackInfo::GetMuteSoloRect. -/
def GetMuteSoloRect.bNarrow (lines : TCPLines) (kItemMute kItemSolo : Nat)
    (bHasSoloButton : Bool) : Bool :=
  GetMuteSoloRect.bSameRow lines kItemMute kItemSolo && bHasSoloButton

/-- The function TrackInfo::GetMuteSoloRect; lines is the table that the
controls of the track return from GetTCPLines(). -/
def GetMuteSoloRect (lines : TCPLines) (kItemMute kItemSolo : Nat) (kTrackInfoBtnSize : Int)
    (rect dest : wxRect) (solo bHasSoloButton : Bool) : wxRect :=
  let resultsM := CalcItemY lines kItemMute
  let resultsS := CalcItemY lines kItemSolo
  let dest : wxRect := ⟨dest.x, dest.y, dest.width, resultsS.2⟩
  let yMute := resultsM.1
  let ySolo := resultsS.1
  let bSameRow := GetMuteSoloRect.bSameRow lines kItemMute kItemSolo
  let bNarrow := GetMuteSoloRect.bNarrow lines kItemMute kItemSolo bHasSoloButton
  let dest :=
    if bNarrow then
      if solo then GetNarrowSoloHorizontalBounds rect dest
      else GetNarrowMuteHorizontalBounds rect dest
    else GetWideMuteSoloHorizontalBounds kTrackInfoBtnSize rect dest
  if bSameRow || !solo then ⟨dest.x, rect.y + yMute, dest.width, dest.height⟩
  else ⟨dest.x, rect.y + ySolo, dest.width, dest.height⟩

/-- The sum of height + extraSpace over the lines of a list. -/
def extent (lines : TCPLines) : Int :=
  (lines.map (fun l => l.height + l.extraSpace)).sum

/-- A wave track line list with concrete constants (button size 18, slider
height 25, slider extra 5; flags 1, 2, 4, 8, 16, 32, 1024). -/
def sampleWaveLines : TCPLines :=
  [⟨1, 18, 0, true⟩, ⟨4 ||| 8, 19, 2, true⟩, ⟨16, 25, 5, true⟩, ⟨32, 25, 5, true⟩,
   ⟨2, 12, 0, true⟩, ⟨1024, 12, 0, true⟩]

/-- A bottom line list of two lines with concrete constants. -/
def sampleBottomLines : TCPLines :=
  [⟨512, 18, 0, true⟩, ⟨256, 10, 3, true⟩]

/-- Concrete values for the constants: the flags 1 (bar buttons), 2 (status
1), 4 (mute), 8 (solo), 16 (gain), 32 (pan), 64 (velocity), 128 (MIDI
controls), 1024 (status 2); button size 18, slider height 25, slider extra
5. -/
def sampleConstants : Constants :=
  ⟨1, 2, 4, 8, 16, 32, 64, 128, 1024, 18, 25, 5⟩

/-- The line list of the end-to-end scenario: the base list of one line
extended by two lines. -/
def scenarioLines (maskA maskB maskC maskD : Nat) : TCPLines :=
  [⟨maskA, 20, 0, true⟩] ++ [⟨maskB, 10, 2, true⟩, ⟨maskC ||| maskD, 15, 0, true⟩]

/-- The steps of the top loop of DrawItems written out for a known limit
(the offset of the highest bottom item), from the running yy. -/
def topSteps (rect : wxRect) (limit : Int) : Int → TCPLines → List DrawStep
  | _, [] => []
  | yy, line :: rest =>
    ⟨⟨rect.x, rect.y + yy, rect.width, line.height⟩,
      !(decide (rect.y + yy + line.height - 0 ≥ rect.y + limit)) && line.drawFunction⟩ ::
      topSteps rect limit (yy + (line.height + line.extraSpace)) rest

/-! ## Lemmas on the loops -/

theorem extent_nil : extent [] = 0 := rfl

theorem extent_cons (l : TCPLine) (ls : TCPLines) :
    extent (l :: ls) = (l.height + l.extraSpace) + extent ls := by
  simp [extent]

theorem extent_append (as bs : TCPLines) : extent (as ++ bs) = extent as + extent bs := by
  simp [extent]

/-- Every mask that meets a line splits the list at the first such line. -/
theorem exists_first_match (m : Nat) (lines : TCPLines)
    (h : ∃ l ∈ lines, l.items &&& m ≠ 0) :
    ∃ pre l post, lines = pre ++ l :: post ∧ (∀ p ∈ pre, p.items &&& m = 0) ∧
      l.items &&& m ≠ 0 := by
  induction lines with
  | nil => simp at h
  | cons a rest ih =>
    by_cases ha : a.items &&& m = 0
    · have h2 : ∃ l ∈ rest, l.items &&& m ≠ 0 := by
        obtain ⟨l, hl, hne⟩ := h
        rcases List.mem_cons.mp hl with rfl | hin
        · exact absurd ha hne
        · exact ⟨l, hin, hne⟩
      obtain ⟨pre, l, post, heq, hpre, hl⟩ := ih h2
      refine ⟨a :: pre, l, post, by simp [heq], ?_, hl⟩
      intro p hp
      rcases List.mem_cons.mp hp with rfl | hin
      · exact ha
      · exact hpre p hin
    · exact ⟨[], a, rest, rfl, by simp, ha⟩

theorem CalcItemY_scan_match (m : Nat) (pre : TCPLines) (l : TCPLine) (post : TCPLines)
    (hpre : ∀ p ∈ pre, p.items &&& m = 0) (hl : l.items &&& m ≠ 0) (y : Int) :
    CalcItemY.scan m y (pre ++ l :: post) = (y + extent pre, l :: post) := by
  induction pre generalizing y with
  | nil => simp [CalcItemY.scan, hl, extent_nil]
  | cons a rest ih =>
    have ha : a.items &&& m = 0 := hpre a (List.mem_cons_self _ _)
    have hrest : ∀ p ∈ rest, p.items &&& m = 0 :=
      fun p hp => hpre p (List.mem_cons_of_mem _ hp)
    rw [List.cons_append, CalcItemY.scan, if_pos ha, ih hrest, extent_cons]
    congr 1
    ring

theorem CalcItemY_scan_absent (m : Nat) (lines : TCPLines)
    (h : ∀ p ∈ lines, p.items &&& m = 0) (y : Int) :
    CalcItemY.scan m y lines = (y + extent lines, []) := by
  induction lines generalizing y with
  | nil => simp [CalcItemY.scan, extent_nil]
  | cons a rest ih =>
    have ha : a.items &&& m = 0 := h a (List.mem_cons_self _ _)
    have hrest : ∀ p ∈ rest, p.items &&& m = 0 :=
      fun p hp => h p (List.mem_cons_of_mem _ hp)
    rw [CalcItemY.scan, if_pos ha, ih hrest, extent_cons]
    congr 1
    ring

theorem totalTCPLines_foldl_step (lines : TCPLines) (t e : Int) :
    lines.foldl totalTCPLines.step (t, e) =
      (t + extent lines, (lines.getLast?.map (fun l => l.extraSpace)).getD e) := by
  induction lines generalizing t e with
  | nil => simp [extent_nil]
  | cons a rest ih =>
    rw [List.foldl_cons, totalTCPLines.step, ih, extent_cons]
    cases rest with
    | nil => simp [extent_nil]
    | cons b bs =>
      simp only [List.getLast?_cons_cons]
      congr 1
      ring

theorem totalTCPLines_false (lines : TCPLines) : totalTCPLines lines false = extent lines := by
  show (lines.foldl totalTCPLines.step (0, 0)).1 = extent lines
  rw [totalTCPLines_foldl_step]
  simp

theorem totalTCPLines_true_snoc (init : TCPLines) (last : TCPLine) :
    totalTCPLines (init ++ [last]) true = extent init + last.height := by
  show ((init ++ [last]).foldl totalTCPLines.step (0, 0)).1 -
    ((init ++ [last]).foldl totalTCPLines.step (0, 0)).2 = extent init + last.height
  rw [totalTCPLines_foldl_step, extent_append, extent_cons, extent_nil]
  simp
  ring

theorem CalcBottomItemY_scan_match (m : Nat) (pre : TCPLines) (l : TCPLine) (post : TCPLines)
    (hpre : ∀ p ∈ pre, p.items &&& m = 0) (hl : l.items &&& m ≠ 0) (y : Int) :
    CalcBottomItemY.scan m y (pre ++ l :: post) = (y - extent pre, l :: post) := by
  induction pre generalizing y with
  | nil => simp [CalcBottomItemY.scan, hl, extent_nil]
  | cons a rest ih =>
    have ha : a.items &&& m = 0 := hpre a (List.mem_cons_self _ _)
    have hrest : ∀ p ∈ rest, p.items &&& m = 0 :=
      fun p hp => hpre p (List.mem_cons_of_mem _ hp)
    rw [List.cons_append, CalcBottomItemY.scan, if_pos ha, ih hrest, extent_cons]
    congr 1
    ring

theorem CalcBottomItemY_scan_absent (m : Nat) (lines : TCPLines)
    (h : ∀ p ∈ lines, p.items &&& m = 0) (y : Int) :
    CalcBottomItemY.scan m y lines = (y - extent lines, []) := by
  induction lines generalizing y with
  | nil => simp [CalcBottomItemY.scan, extent_nil]
  | cons a rest ih =>
    have ha : a.items &&& m = 0 := h a (List.mem_cons_self _ _)
    have hrest : ∀ p ∈ rest, p.items &&& m = 0 :=
      fun p hp => h p (List.mem_cons_of_mem _ hp)
    rw [CalcBottomItemY.scan, if_pos ha, ih hrest, extent_cons]
    congr 1
    ring

theorem CalcBottomItemY_match (m : Nat) (pre : TCPLines) (l : TCPLine) (post : TCPLines)
    (hpre : ∀ p ∈ pre, p.items &&& m = 0) (hl : l.items &&& m ≠ 0) (height : Int) :
    CalcBottomItemY (pre ++ l :: post) m height =
      some (height - extent pre - (l.height + l.extraSpace), l.height) := by
  simp [CalcBottomItemY, CalcBottomItemY_scan_match m pre l post hpre hl]

theorem CalcBottomItemY_none (m : Nat) (lines : TCPLines)
    (h : ∀ p ∈ lines, p.items &&& m = 0) (height : Int) :
    CalcBottomItemY lines m height = none := by
  simp [CalcBottomItemY, CalcBottomItemY_scan_absent m lines h]

theorem toUnsigned_of_range (v : Int) (h0 : 0 ≤ v) (h1 : v < 2 ^ 32) :
    (toUnsigned v : Int) = v := by
  unfold toUnsigned
  rw [Int.emod_eq_of_lt h0 h1, Int.toNat_of_nonneg h0]

theorem HideTopItem_of_limit (bottomLines : TCPLines) (k : Nat) (rect subRect : wxRect)
    (allowance limit ht : Int)
    (h : CalcBottomItemY bottomLines k rect.height = some (limit, ht)) :
    HideTopItem bottomLines k rect subRect allowance =
      some (decide (subRect.y + subRect.height - allowance ≥ rect.y + limit)) := by
  simp [HideTopItem, h]

theorem CalcBottomItemY_default (kItemSyncLock kItemMinimize k : Nat) (btn height : Int)
    (hmask : (kItemSyncLock ||| kItemMinimize) &&& k ≠ 0) :
    CalcBottomItemY (defaultCommonTrackTCPBottomLines kItemSyncLock kItemMinimize btn) k height =
      some (height - btn, btn) := by
  have := CalcBottomItemY_match k [] ⟨kItemSyncLock ||| kItemMinimize, btn, 0, true⟩ []
    (by simp) hmask height
  simpa [defaultCommonTrackTCPBottomLines, extent_nil] using this

theorem MinimumTrackHeight_default (da : Bool) (kItemBarButtons kItemSyncLock kItemMinimize : Nat)
    (btn kTopMargin kBottomMargin : Int)
    (h0 : 0 ≤ btn + btn + kTopMargin + kBottomMargin + 1)
    (h1 : btn + btn + kTopMargin + kBottomMargin + 1 < 2 ^ 31) :
    (MinimumTrackHeight (commonTrackTCPLines da kItemBarButtons btn)
      (defaultCommonTrackTCPBottomLines kItemSyncLock kItemMinimize btn)
      kTopMargin kBottomMargin : Int) = btn + btn + kTopMargin + kBottomMargin + 1 := by
  have h2 : btn + btn + kTopMargin + kBottomMargin + 1 < 2 ^ 32 := by omega
  have := toUnsigned_of_range _ h0 h2
  cases da <;>
    simpa [MinimumTrackHeight, commonTrackTCPLines, defaultCommonTrackTCPBottomLines] using this

theorem HideTopItem_isSome (bottomLines : TCPLines) (k : Nat) (rect subRect : wxRect)
    (allowance : Int) (h : ∃ l ∈ bottomLines, l.items &&& k ≠ 0) :
    ∃ b, HideTopItem bottomLines k rect subRect allowance = some b := by
  obtain ⟨pre, l, post, heq, hpre, hl⟩ := exists_first_match k bottomLines h
  subst heq
  exact ⟨_, HideTopItem_of_limit _ _ _ _ _ _ _
    (CalcBottomItemY_match k pre l post hpre hl rect.height)⟩

/-- The top loop of DrawItems on the suffix suf of pre ++ suf, entered with
yy = extent pre: it completes, and the rectangle of each line agrees with
CalcItemY on the whole list. -/
theorem DrawItems_topPass_rects (bottomLines : TCPLines) (k : Nat) (rect : wxRect)
    (hb : ∃ l ∈ bottomLines, l.items &&& k ≠ 0) (suf pre : TCPLines)
    (hne : ∀ l ∈ suf, l.items ≠ 0)
    (hdisj : (pre ++ suf).Pairwise (fun a b => a.items &&& b.items = 0)) :
    ∃ steps, DrawItems.topPass bottomLines k rect (extent pre) suf = some steps ∧
      steps.map (fun s => s.itemRect) =
        suf.map (fun l => (⟨rect.x, rect.y + (CalcItemY (pre ++ suf) l.items).1, rect.width,
          (CalcItemY (pre ++ suf) l.items).2⟩ : wxRect)) := by
  induction suf generalizing pre with
  | nil => exact ⟨[], rfl, rfl⟩
  | cons l rest ih =>
    have hl : l.items &&& l.items ≠ 0 := by
      rw [Nat.and_self]
      exact hne l (List.mem_cons_self _ _)
    have hpre : ∀ p ∈ pre, p.items &&& l.items = 0 := by
      intro p hp
      exact (List.pairwise_append.mp hdisj).2.2 p hp l (List.mem_cons_self _ _)
    have hcalc : CalcItemY (pre ++ l :: rest) l.items = (extent pre, l.height) := by
      simp [CalcItemY, CalcItemY_scan_match l.items pre l rest hpre hl]
    have hstep : pre ++ l :: rest = (pre ++ [l]) ++ rest := by simp
    have hext : extent (pre ++ [l]) = extent pre + (l.height + l.extraSpace) := by
      rw [extent_append, extent_cons, extent_nil, add_zero]
    obtain ⟨steps, hsteps, hmap⟩ := ih (pre ++ [l])
      (fun q hq => hne q (List.mem_cons_of_mem _ hq)) (by rw [← hstep]; exact hdisj)
    obtain ⟨hide, hhide⟩ := HideTopItem_isSome bottomLines k rect
      ⟨rect.x, rect.y + extent pre, rect.width, l.height⟩ 0 hb
    rw [hext] at hsteps
    refine ⟨⟨⟨rect.x, rect.y + extent pre, rect.width, l.height⟩,
      !hide && l.drawFunction⟩ :: steps, ?_, ?_⟩
    · simp only [DrawItems.topPass, hhide, hsteps]
    · rw [List.map_cons, List.map_cons, hmap, hcalc, hstep]

theorem CalcItemY_match (m : Nat) (pre : TCPLines) (l : TCPLine) (post : TCPLines)
    (hpre : ∀ p ∈ pre, p.items &&& m = 0) (hl : l.items &&& m ≠ 0) :
    CalcItemY (pre ++ l :: post) m = (extent pre, l.height) := by
  simp [CalcItemY, CalcItemY_scan_match m pre l post hpre hl]

theorem CalcItemY_append_of_match (base ext : TCPLines) (m : Nat)
    (h : ∃ l ∈ base, l.items &&& m ≠ 0) :
    CalcItemY (base ++ ext) m = CalcItemY base m := by
  obtain ⟨pre, l, post, heq, hpre, hl⟩ := exists_first_match m base h
  subst heq
  rw [List.append_assoc, List.cons_append, CalcItemY_match m pre l (post ++ ext) hpre hl,
    CalcItemY_match m pre l post hpre hl]

/-- The bottom loop of DrawItems on the suffix suf of pre ++ suf, entered
with yy = height - extent pre: the rectangle of each line with a draw
function agrees with CalcBottomItemY on the whole list. -/
theorem DrawItems_bottomPass_rects (rect : wxRect) (height : Int) (suf pre : TCPLines)
    (hne : ∀ l ∈ suf, l.items ≠ 0)
    (hdisj : (pre ++ suf).Pairwise (fun a b => a.items &&& b.items = 0)) :
    DrawItems.bottomPass rect (height - extent pre) suf =
      suf.map (fun l =>
        if l.drawFunction then
          (CalcBottomItemY (pre ++ suf) l.items height).map
            (fun r => (⟨rect.x, rect.y + r.1, rect.width, r.2⟩ : wxRect))
        else none) := by
  induction suf generalizing pre with
  | nil => rfl
  | cons l rest ih =>
    have hl : l.items &&& l.items ≠ 0 := by
      rw [Nat.and_self]
      exact hne l (List.mem_cons_self _ _)
    have hpre : ∀ p ∈ pre, p.items &&& l.items = 0 := by
      intro p hp
      exact (List.pairwise_append.mp hdisj).2.2 p hp l (List.mem_cons_self _ _)
    have hcalc := CalcBottomItemY_match l.items pre l rest hpre hl height
    have hstep : pre ++ l :: rest = (pre ++ [l]) ++ rest := by simp
    have hext : height - extent (pre ++ [l]) =
        height - extent pre - (l.height + l.extraSpace) := by
      rw [extent_append, extent_cons, extent_nil, add_zero]
      ring
    have htail := ih (pre ++ [l])
      (fun q hq => hne q (List.mem_cons_of_mem _ hq)) (by rw [← hstep]; exact hdisj)
    rw [hext, ← hstep] at htail
    rw [List.map_cons, hcalc, DrawItems.bottomPass, htail]
    rfl

theorem CalcBottomItemY_own_mask (lines : TCPLines) (height : Int)
    (hne : ∀ l ∈ lines, l.items ≠ 0) (l : TCPLine) (hl : l ∈ lines) :
    ∃ y h, CalcBottomItemY lines l.items height = some (y, h) := by
  have hex : ∃ q ∈ lines, q.items &&& l.items ≠ 0 :=
    ⟨l, hl, by rw [Nat.and_self]; exact hne l hl⟩
  obtain ⟨pre, q, post, heq, hpre, hq⟩ := exists_first_match l.items lines hex
  subst heq
  exact ⟨_, _, CalcBottomItemY_match l.items pre q post hpre hq height⟩

theorem extent_nonneg (lines : TCPLines)
    (hnn : ∀ l ∈ lines, 0 ≤ l.height ∧ 0 ≤ l.extraSpace) : 0 ≤ extent lines := by
  induction lines with
  | nil => simp [extent_nil]
  | cons a rest ih =>
    have ha := hnn a (List.mem_cons_self _ _)
    have hrest := ih (fun l hl => hnn l (List.mem_cons_of_mem _ hl))
    rw [extent_cons]
    omega

theorem two_pow_and_two_pow_of_ne (i k : Nat) (h : i ≠ k) : 2 ^ i &&& 2 ^ k = 0 := by
  apply Nat.eq_of_testBit_eq
  intro n
  rw [Nat.testBit_and, Nat.testBit_two_pow, Nat.testBit_two_pow, Nat.zero_testBit]
  by_cases h1 : i = n
  · have h2 : ¬ k = n := fun hk => h (h1.trans hk.symm)
    simp [h2]
  · simp [h1]

theorem or_two_pow_and_self_ne_zero (k l : Nat) : (2 ^ k ||| 2 ^ l) &&& 2 ^ k ≠ 0 := by
  intro h
  have h1 : ((2 ^ k ||| 2 ^ l) &&& 2 ^ k).testBit k = true := by
    rw [Nat.testBit_and, Nat.testBit_or, Nat.testBit_two_pow_self]
    rfl
  rw [h, Nat.zero_testBit] at h1
  exact Bool.false_ne_true h1

theorem GetMuteSoloRect_bSameRow_of_shared (pre post : TCPLines) (l : TCPLine)
    (kItemMute kItemSolo : Nat)
    (hpreM : ∀ p ∈ pre, p.items &&& kItemMute = 0)
    (hpreS : ∀ p ∈ pre, p.items &&& kItemSolo = 0)
    (hlM : l.items &&& kItemMute ≠ 0) (hlS : l.items &&& kItemSolo ≠ 0) :
    GetMuteSoloRect.bSameRow (pre ++ l :: post) kItemMute kItemSolo = true := by
  simp [GetMuteSoloRect.bSameRow, CalcItemY_match kItemMute pre l post hpreM hlM,
    CalcItemY_match kItemSolo pre l post hpreS hlS]

theorem DrawItems_topPass_eq_topSteps (bottomLines : TCPLines) (k : Nat) (rect : wxRect)
    (limit ht : Int) (h : CalcBottomItemY bottomLines k rect.height = some (limit, ht))
    (lines : TCPLines) (yy : Int) :
    DrawItems.topPass bottomLines k rect yy lines = some (topSteps rect limit yy lines) := by
  induction lines generalizing yy with
  | nil => rfl
  | cons l rest ih =>
    simp only [DrawItems.topPass, topSteps,
      HideTopItem_of_limit bottomLines k rect _ 0 limit ht h, ih]

theorem topSteps_length (rect : wxRect) (limit : Int) (lines : TCPLines) (yy : Int) :
    (topSteps rect limit yy lines).length = lines.length := by
  induction lines generalizing yy with
  | nil => rfl
  | cons l rest ih => simp [topSteps, ih]

/-- With non-negative heights and extra spaces, the bottom edge of every
rectangle of the top loop is at or below the running yy, and a drawn step
ends above the limit. -/
theorem topSteps_mem (rect : wxRect) (limit : Int) (lines : TCPLines)
    (hnn : ∀ l ∈ lines, 0 ≤ l.height ∧ 0 ≤ l.extraSpace) (yy : Int) :
    ∀ s ∈ topSteps rect limit yy lines,
      rect.y + yy ≤ s.itemRect.y + s.itemRect.height ∧
      (s.drawn = true → s.itemRect.y + s.itemRect.height < rect.y + limit) := by
  induction lines generalizing yy with
  | nil => intro s hs; simp [topSteps] at hs
  | cons l rest ih =>
    have hl := hnn l (List.mem_cons_self _ _)
    intro s hs
    rw [topSteps, List.mem_cons] at hs
    rcases hs with rfl | hs
    · refine ⟨by show rect.y + yy ≤ rect.y + yy + l.height; omega, ?_⟩
      intro hd
      simp only [Bool.and_eq_true, Bool.not_eq_true', decide_eq_false_iff_not] at hd
      show rect.y + yy + l.height < rect.y + limit
      omega
    · have := ih (fun q hq => hnn q (List.mem_cons_of_mem _ hq))
        (yy + (l.height + l.extraSpace)) s hs
      exact ⟨by omega, this.2⟩

theorem totalTCPLines_true_eq (lines : TCPLines) :
    totalTCPLines lines true =
      extent lines - (lines.getLast?.map (fun l => l.extraSpace)).getD 0 := by
  show (lines.foldl totalTCPLines.step (0, 0)).1 - (lines.foldl totalTCPLines.step (0, 0)).2 = _
  rw [totalTCPLines_foldl_step]
  simp

theorem totalTCPLines_true_single (l : TCPLine) : totalTCPLines [l] true = l.height := by
  rw [totalTCPLines_true_eq, extent_cons, extent_nil]
  simp

theorem totalTCPLines_true_cons_cons (l m : TCPLine) (rest : TCPLines) :
    totalTCPLines (l :: m :: rest) true =
      (l.height + l.extraSpace) + totalTCPLines (m :: rest) true := by
  rw [totalTCPLines_true_eq, totalTCPLines_true_eq, extent_cons, List.getLast?_cons_cons]
  ring

theorem totalTCPLines_true_nonneg (lines : TCPLines)
    (hnn : ∀ l ∈ lines, 0 ≤ l.height ∧ 0 ≤ l.extraSpace) : 0 ≤ totalTCPLines lines true := by
  induction lines with
  | nil => exact le_of_eq rfl
  | cons l rest ih =>
    have hl := hnn l (List.mem_cons_self _ _)
    cases rest with
    | nil => rw [totalTCPLines_true_single]; exact hl.1
    | cons m rest2 =>
      have := ih (fun q hq => hnn q (List.mem_cons_of_mem _ hq))
      rw [totalTCPLines_true_cons_cons]
      omega

/-- When the running yy plus the total of the remaining lines (last extra
space omitted) stays below the limit, no step of the top loop is hidden. -/
theorem topSteps_none_hidden (rect : wxRect) (limit : Int) (lines : TCPLines)
    (hnn : ∀ l ∈ lines, 0 ≤ l.height ∧ 0 ≤ l.extraSpace) (yy : Int)
    (hfit : yy + totalTCPLines lines true < limit) :
    (∀ s ∈ topSteps rect limit yy lines,
      ¬ (s.itemRect.y + s.itemRect.height - 0 ≥ rect.y + limit)) ∧
    (topSteps rect limit yy lines).map (fun s => s.drawn) =
      lines.map (fun l => l.drawFunction) := by
  induction lines generalizing yy with
  | nil => exact ⟨by intro s hs; simp [topSteps] at hs, rfl⟩
  | cons l rest ih =>
    have hl := hnn l (List.mem_cons_self _ _)
    have hrestnn : ∀ q ∈ rest, 0 ≤ q.height ∧ 0 ≤ q.extraSpace :=
      fun q hq => hnn q (List.mem_cons_of_mem _ hq)
    have hhead : yy + l.height < limit := by
      cases rest with
      | nil => rw [totalTCPLines_true_single] at hfit; exact hfit
      | cons m rest2 =>
        have := totalTCPLines_true_nonneg (m :: rest2) hrestnn
        rw [totalTCPLines_true_cons_cons] at hfit
        omega
    have htail : (∀ s ∈ topSteps rect limit (yy + (l.height + l.extraSpace)) rest,
          ¬ (s.itemRect.y + s.itemRect.height - 0 ≥ rect.y + limit)) ∧
        (topSteps rect limit (yy + (l.height + l.extraSpace)) rest).map (fun s => s.drawn) =
          rest.map (fun l => l.drawFunction) := by
      cases rest with
      | nil => exact ⟨by intro s hs; simp [topSteps] at hs, rfl⟩
      | cons m rest2 =>
        apply ih hrestnn
        rw [totalTCPLines_true_cons_cons] at hfit
        omega
    constructor
    · intro s hs
      rw [topSteps, List.mem_cons] at hs
      rcases hs with rfl | hs
      · show ¬ (rect.y + yy + l.height - 0 ≥ rect.y + limit)
        omega
      · exact htail.1 s hs
    · have hdec : decide (rect.y + yy + l.height - 0 ≥ rect.y + limit) = false := by
        rw [decide_eq_false_iff_not]
        omega
      rw [topSteps, List.map_cons, List.map_cons, htail.2, hdec]
      rfl

theorem topSteps_pairwise_bottom (rect : wxRect) (limit : Int) (lines : TCPLines)
    (hnn : ∀ l ∈ lines, 0 ≤ l.height ∧ 0 ≤ l.extraSpace) (yy : Int) :
    (topSteps rect limit yy lines).Pairwise
      (fun (a b : DrawStep) =>
        a.itemRect.y + a.itemRect.height ≤ b.itemRect.y + b.itemRect.height) := by
  induction lines generalizing yy with
  | nil => exact List.Pairwise.nil
  | cons l rest ih =>
    have hl := hnn l (List.mem_cons_self _ _)
    have hrestnn : ∀ q ∈ rest, 0 ≤ q.height ∧ 0 ≤ q.extraSpace :=
      fun q hq => hnn q (List.mem_cons_of_mem _ hq)
    rw [topSteps, List.pairwise_cons]
    refine ⟨?_, ih hrestnn _⟩
    intro s hs
    have := (topSteps_mem rect limit rest hrestnn (yy + (l.height + l.extraSpace)) s hs).1
    show rect.y + yy + l.height ≤ s.itemRect.y + s.itemRect.height
    omega

theorem topSteps_zip_pairwise (rect : wxRect) (limit : Int) (lines : TCPLines)
    (hnn : ∀ l ∈ lines, 0 ≤ l.height ∧ 0 ≤ l.extraSpace) (yy : Int) :
    (lines.zip (topSteps rect limit yy lines)).Pairwise
      (fun (a b : TCPLine × DrawStep) =>
        a.1.drawFunction = true → b.2.drawn = true → a.2.drawn = true) := by
  induction lines generalizing yy with
  | nil => exact List.Pairwise.nil
  | cons l rest ih =>
    have hl := hnn l (List.mem_cons_self _ _)
    have hrestnn : ∀ q ∈ rest, 0 ≤ q.height ∧ 0 ≤ q.extraSpace :=
      fun q hq => hnn q (List.mem_cons_of_mem _ hq)
    rw [topSteps, List.zip_cons_cons, List.pairwise_cons]
    refine ⟨?_, ih hrestnn _⟩
    rintro ⟨q, sq⟩ hmem hdraw hdrawn
    have hsq := (List.of_mem_zip hmem).2
    have hm := topSteps_mem rect limit rest hrestnn (yy + (l.height + l.extraSpace)) sq hsq
    have hlt := hm.2 hdrawn
    have hdec : decide (rect.y + yy + l.height - 0 ≥ rect.y + limit) = false := by
      rw [decide_eq_false_iff_not]
      omega
    show (!(decide (rect.y + yy + l.height - 0 ≥ rect.y + limit)) && l.drawFunction) = true
    rw [hdec]
    simpa using hdraw

/-! ## Claims -/

/-- C1: for every line list and every query mask that meets at least one
line, CalcItemY returns the sum of height + extraSpace over the lines
strictly before the first line that meets the mask, and the height of that
line. -/
theorem CalcItemY_first_match (lines : TCPLines) (iItem : Nat)
    (h : ∃ l ∈ lines, l.items &&& iItem ≠ 0) :
    ∃ pre l post, lines = pre ++ l :: post ∧ (∀ p ∈ pre, p.items &&& iItem = 0) ∧
      l.items &&& iItem ≠ 0 ∧
      CalcItemY lines iItem =
        ((pre.map (fun p => p.height + p.extraSpace)).sum, l.height) := by
  obtain ⟨pre, l, post, heq, hpre, hl⟩ := exists_first_match iItem lines h
  refine ⟨pre, l, post, heq, hpre, hl, ?_⟩
  subst heq
  simp [CalcItemY, CalcItemY_scan_match iItem pre l post hpre hl, extent]

/-- An instance of C1: the pan slider (flag 32) of the sample wave lines. -/
theorem CalcItemY_first_match_witness :
    (∃ l ∈ sampleWaveLines, l.items &&& 32 ≠ 0) ∧
    ∃ pre l post, sampleWaveLines = pre ++ l :: post ∧ (∀ p ∈ pre, p.items &&& 32 = 0) ∧
      l.items &&& 32 ≠ 0 ∧
      CalcItemY sampleWaveLines 32 =
        ((pre.map (fun p => p.height + p.extraSpace)).sum, l.height) :=
  have h : ∃ l ∈ sampleWaveLines, l.items &&& 32 ≠ 0 :=
    ⟨⟨32, 25, 5, true⟩, by simp [sampleWaveLines], by decide⟩
  ⟨h, CalcItemY_first_match sampleWaveLines 32 h⟩

/-- C2: for every bottom line list, panel height and query mask that meets
at least one line, CalcBottomItemY returns the panel height minus the sum
of height + extraSpace over the lines up to and including the first line
that meets the mask, and the height of that line; for the list of the
single line (maskE, 18, 0) and height 200 the result is (182, 18). -/
theorem CalcBottomItemY_first_match (lines : TCPLines) (iItem : Nat) (height : Int)
    (h : ∃ l ∈ lines, l.items &&& iItem ≠ 0) :
    (∃ pre l post, lines = pre ++ l :: post ∧ (∀ p ∈ pre, p.items &&& iItem = 0) ∧
      l.items &&& iItem ≠ 0 ∧
      CalcBottomItemY lines iItem height =
        some (height - ((pre ++ [l]).map (fun p => p.height + p.extraSpace)).sum,
          l.height)) ∧
    (∀ (maskE : Nat) (d : Bool), maskE ≠ 0 →
      CalcBottomItemY [⟨maskE, 18, 0, d⟩] maskE 200 = some (182, 18)) := by
  constructor
  · obtain ⟨pre, l, post, heq, hpre, hl⟩ := exists_first_match iItem lines h
    refine ⟨pre, l, post, heq, hpre, hl, ?_⟩
    subst heq
    have hsum : ((pre ++ [l]).map (fun p => p.height + p.extraSpace)).sum =
        extent pre + (l.height + l.extraSpace) := by
      rw [← extent, extent_append, extent_cons, extent_nil, add_zero]
    rw [CalcBottomItemY_match iItem pre l post hpre hl height, hsum]
    congr 2
    ring
  · intro maskE d hne
    have hl : (⟨maskE, 18, 0, d⟩ : TCPLine).items &&& maskE ≠ 0 := by
      simpa [Nat.and_self] using hne
    have := CalcBottomItemY_match maskE [] ⟨maskE, 18, 0, d⟩ [] (by simp) hl 200
    simpa [extent_nil] using this

/-- An instance of C2: the second line (flag 256) of the sample bottom
lines, for a panel of height 200. -/
theorem CalcBottomItemY_first_match_witness :
    (∃ l ∈ sampleBottomLines, l.items &&& 256 ≠ 0) ∧
    ((∃ pre l post, sampleBottomLines = pre ++ l :: post ∧
      (∀ p ∈ pre, p.items &&& 256 = 0) ∧ l.items &&& 256 ≠ 0 ∧
      CalcBottomItemY sampleBottomLines 256 200 =
        some (200 - ((pre ++ [l]).map (fun p => p.height + p.extraSpace)).sum,
          l.height)) ∧
    (∀ (maskE : Nat) (d : Bool), maskE ≠ 0 →
      CalcBottomItemY [⟨maskE, 18, 0, d⟩] maskE 200 = some (182, 18))) :=
  have h : ∃ l ∈ sampleBottomLines, l.items &&& 256 ≠ 0 :=
    ⟨⟨256, 10, 3, true⟩, by simp [sampleBottomLines], by decide⟩
  ⟨h, CalcBottomItemY_first_match sampleBottomLines 256 200 h⟩

/-- C3: for every line list and every query mask that meets no line of
the list, CalcItemY returns height 0 and the sum of height + extraSpace
over all lines, which is totalTCPLines of the list with omitLastExtra
false. -/
theorem CalcItemY_absent (lines : TCPLines) (iItem : Nat)
    (h : ∀ l ∈ lines, l.items &&& iItem = 0) :
    CalcItemY lines iItem = ((lines.map (fun p => p.height + p.extraSpace)).sum, 0) ∧
    CalcItemY lines iItem = (totalTCPLines lines false, 0) ∧
    CalcItemY [] iItem = (0, 0) := by
  have h1 : CalcItemY lines iItem = (extent lines, 0) := by
    simp [CalcItemY, CalcItemY_scan_absent iItem lines h]
  refine ⟨by simpa [extent] using h1, by rw [h1, totalTCPLines_false], rfl⟩

/-- An instance of C3: the velocity flag (64) is absent from the sample
wave lines, whose full extent is 123. -/
theorem CalcItemY_absent_witness :
    (∀ l ∈ sampleWaveLines, l.items &&& 64 = 0) ∧
    (CalcItemY sampleWaveLines 64 =
        ((sampleWaveLines.map (fun p => p.height + p.extraSpace)).sum, 0) ∧
      CalcItemY sampleWaveLines 64 = (totalTCPLines sampleWaveLines false, 0) ∧
      CalcItemY [] 64 = (0, 0)) :=
  have h : ∀ l ∈ sampleWaveLines, l.items &&& 64 = 0 := by decide
  ⟨h, CalcItemY_absent sampleWaveLines 64 h⟩

/-- C4 (the code at an absent mask): CalcBottomItemY reads the height of
the line at the end iterator, so it has no defined result for the empty
list, nor for a list that the mask does not meet. -/
theorem CalcBottomItemY_absent_undefined :
    CalcBottomItemY [] 256 200 = none ∧
    CalcBottomItemY (defaultCommonTrackTCPBottomLines 512 256 18) 4 200 = none ∧
    CalcItemY (defaultCommonTrackTCPBottomLines 512 256 18) 4 = (18, 0) := by
  decide

/-- C5: totalTCPLines with omitLastExtra false is the sum of
height + extraSpace over all lines (0 for the empty list); for a non-empty
list, written init ++ [last], the total with omitLastExtra true plus the
extraSpace of the last line is the total with omitLastExtra false, and only
that extraSpace is omitted. -/
theorem totalTCPLines_spec (lines init : TCPLines) (last : TCPLine) :
    totalTCPLines lines false = (lines.map (fun p => p.height + p.extraSpace)).sum ∧
    totalTCPLines [] false = 0 ∧
    totalTCPLines (init ++ [last]) true + last.extraSpace =
      totalTCPLines (init ++ [last]) false ∧
    totalTCPLines (init ++ [last]) true =
      (init.map (fun p => p.height + p.extraSpace)).sum + last.height := by
  refine ⟨by rw [totalTCPLines_false, extent], rfl, ?_, ?_⟩
  · rw [totalTCPLines_true_snoc, totalTCPLines_false, extent_append, extent_cons, extent_nil]
    ring
  · rw [totalTCPLines_true_snoc, extent]

/-- C6: for every panel rectangle, item rectangle and allowance, when the
mask kHighestBottomItem meets a line of the common bottom list,
HideTopItem returns true if and only if
itemRect.y + itemRect.height - allowance >= panelRect.y + limit, where limit
is the offset that CalcBottomItemY returns for the common bottom list, that
mask and the panel height; equality counts as hidden. -/
theorem HideTopItem_iff (bottomLines : TCPLines) (kHighestBottomItem : Nat)
    (rect subRect : wxRect) (allowance : Int)
    (h : ∃ l ∈ bottomLines, l.items &&& kHighestBottomItem ≠ 0) :
    ∃ limit ht, CalcBottomItemY bottomLines kHighestBottomItem rect.height = some (limit, ht) ∧
      (HideTopItem bottomLines kHighestBottomItem rect subRect allowance = some true ↔
        subRect.y + subRect.height - allowance ≥ rect.y + limit) ∧
      (HideTopItem bottomLines kHighestBottomItem rect subRect allowance = some false ↔
        ¬ (subRect.y + subRect.height - allowance ≥ rect.y + limit)) ∧
      (subRect.y + subRect.height - allowance = rect.y + limit →
        HideTopItem bottomLines kHighestBottomItem rect subRect allowance = some true) := by
  obtain ⟨pre, l, post, heq, hpre, hl⟩ := exists_first_match kHighestBottomItem bottomLines h
  subst heq
  have hc := CalcBottomItemY_match kHighestBottomItem pre l post hpre hl rect.height
  refine ⟨_, _, hc, ?_, ?_, ?_⟩
  · rw [HideTopItem_of_limit _ _ _ _ _ _ _ hc]
    simp
  · rw [HideTopItem_of_limit _ _ _ _ _ _ _ hc]
    simp
  · intro he
    rw [HideTopItem_of_limit _ _ _ _ _ _ _ hc]
    simp only [Option.some.injEq, decide_eq_true_eq]
    omega

/-- An instance of C6: the default bottom list with button size 18 and
kHighestBottomItem the minimize flag, a panel of height 100 at y = 40 and
the item rectangle of height 18 at y = 104, which just touches the limit. -/
theorem HideTopItem_iff_witness :
    (∃ l ∈ defaultCommonTrackTCPBottomLines 512 256 18, l.items &&& 256 ≠ 0) ∧
    ∃ limit ht,
      CalcBottomItemY (defaultCommonTrackTCPBottomLines 512 256 18) 256
        (wxRect.mk 0 40 96 100).height = some (limit, ht) ∧
      (HideTopItem (defaultCommonTrackTCPBottomLines 512 256 18) 256
          (wxRect.mk 0 40 96 100) (wxRect.mk 0 104 96 18) 0 = some true ↔
        (wxRect.mk 0 104 96 18).y + (wxRect.mk 0 104 96 18).height - 0 ≥
          (wxRect.mk 0 40 96 100).y + limit) ∧
      (HideTopItem (defaultCommonTrackTCPBottomLines 512 256 18) 256
          (wxRect.mk 0 40 96 100) (wxRect.mk 0 104 96 18) 0 = some false ↔
        ¬ ((wxRect.mk 0 104 96 18).y + (wxRect.mk 0 104 96 18).height - 0 ≥
          (wxRect.mk 0 40 96 100).y + limit)) ∧
      ((wxRect.mk 0 104 96 18).y + (wxRect.mk 0 104 96 18).height - 0 =
          (wxRect.mk 0 40 96 100).y + limit →
        HideTopItem (defaultCommonTrackTCPBottomLines 512 256 18) 256
          (wxRect.mk 0 40 96 100) (wxRect.mk 0 104 96 18) 0 = some true) :=
  have h : ∃ l ∈ defaultCommonTrackTCPBottomLines 512 256 18, l.items &&& 256 ≠ 0 :=
    ⟨⟨512 ||| 256, 18, 0, true⟩, by simp [defaultCommonTrackTCPBottomLines], by decide⟩
  ⟨h, HideTopItem_iff (defaultCommonTrackTCPBottomLines 512 256 18) 256
    (wxRect.mk 0 40 96 100) (wxRect.mk 0 104 96 18) 0 h⟩

/-- C7: in a panel whose height is exactly MinimumTrackHeight(), the first
line of the common top lines, placed at offset 0 from the panel top with its
own height and allowance 0, is not hidden by HideTopItem.  The header
constants are parameters: kHighestBottomItem meets the bottom line, the
button size and margins are not negative and the minimum height fits an
int. -/
theorem HideTopItem_at_MinimumTrackHeight (da : Bool)
    (kItemBarButtons kItemSyncLock kItemMinimize kHighestBottomItem : Nat)
    (kTrackInfoBtnSize kTopMargin kBottomMargin x y width : Int) (first : TCPLine)
    (hfirst : (commonTrackTCPLines da kItemBarButtons kTrackInfoBtnSize).head? = some first)
    (hmask : (kItemSyncLock ||| kItemMinimize) &&& kHighestBottomItem ≠ 0)
    (hbtn : 0 ≤ kTrackInfoBtnSize) (htop : 0 ≤ kTopMargin) (hbot : 0 ≤ kBottomMargin)
    (hrange : kTrackInfoBtnSize + kTrackInfoBtnSize + kTopMargin + kBottomMargin + 1 < 2 ^ 31) :
    HideTopItem
      (defaultCommonTrackTCPBottomLines kItemSyncLock kItemMinimize kTrackInfoBtnSize)
      kHighestBottomItem
      ⟨x, y, width,
        (MinimumTrackHeight (commonTrackTCPLines da kItemBarButtons kTrackInfoBtnSize)
          (defaultCommonTrackTCPBottomLines kItemSyncLock kItemMinimize kTrackInfoBtnSize)
          kTopMargin kBottomMargin : Int)⟩
      ⟨x, y + 0, width, first.height⟩ 0 = some false := by
  have hh : first.height = kTrackInfoBtnSize := by
    cases da <;> simp [commonTrackTCPLines] at hfirst <;> rw [← hfirst]
  rw [MinimumTrackHeight_default da kItemBarButtons kItemSyncLock kItemMinimize
    kTrackInfoBtnSize kTopMargin kBottomMargin (by omega) hrange]
  rw [HideTopItem_of_limit _ _ _ _ _ _ _
    (CalcBottomItemY_default kItemSyncLock kItemMinimize kHighestBottomItem
      kTrackInfoBtnSize _ hmask)]
  simp only [Option.some.injEq, decide_eq_false_iff_not, hh]
  omega

/-- An instance of C7 with button size 18, margins 5 and 2, and the flags
1 (bar buttons), 512 (sync lock), 256 (minimize, also the highest bottom
item): the minimum height is 44. -/
theorem HideTopItem_at_MinimumTrackHeight_witness :
    MinimumTrackHeight (commonTrackTCPLines false 1 18)
      (defaultCommonTrackTCPBottomLines 512 256 18) 5 2 = 44 ∧
    HideTopItem (defaultCommonTrackTCPBottomLines 512 256 18) 256
      ⟨0, 0, 96,
        (MinimumTrackHeight (commonTrackTCPLines false 1 18)
          (defaultCommonTrackTCPBottomLines 512 256 18) 5 2 : Int)⟩
      ⟨0, 0 + 0, 96, (TCPLine.mk 1 18 0 true).height⟩ 0 = some false :=
  ⟨by decide,
   HideTopItem_at_MinimumTrackHeight false 1 512 256 256 18 5 2 0 0 96 ⟨1, 18, 0, true⟩
    rfl (by decide) (by decide) (by decide) (by decide) (by decide)⟩

/-- C8 (as stated, refuted): with button size 18 and margins 5 and 2 the
minimum height is 44, and in a panel of height 43 the first top line, at
offset 0 with its height 18 and allowance 0, is not hidden: the limit is 25
and the bottom of the item is 18. -/
theorem HideTopItem_below_MinimumTrackHeight_counterexample :
    (commonTrackTCPLines false 1 18).head? = some ⟨1, 18, 0, true⟩ ∧
    MinimumTrackHeight (commonTrackTCPLines false 1 18)
      (defaultCommonTrackTCPBottomLines 512 256 18) 5 2 = 44 ∧
    CalcBottomItemY (defaultCommonTrackTCPBottomLines 512 256 18) 256 (44 - 1) =
      some (25, 18) ∧
    HideTopItem (defaultCommonTrackTCPBottomLines 512 256 18) 256
      ⟨0, 0, 96,
        (MinimumTrackHeight (commonTrackTCPLines false 1 18)
          (defaultCommonTrackTCPBottomLines 512 256 18) 5 2 : Int) - 1⟩
      ⟨0, 0 + 0, 96, 18⟩ 0 = some false := by
  decide

/-- C8 (amended): in a panel whose height is one pixel less than
MinimumTrackHeight(), the first line of the common top lines, at offset 0
with its own height and allowance 0, is hidden exactly when
kTopMargin + kBottomMargin is 0 (it is shown when a margin is positive);
it is hidden in the panel whose height is MinimumTrackHeight() less one
pixel and less the two margins, which is the height of the first top line
plus the height of the first bottom line. -/
theorem HideTopItem_below_MinimumTrackHeight (da : Bool)
    (kItemBarButtons kItemSyncLock kItemMinimize kHighestBottomItem : Nat)
    (kTrackInfoBtnSize kTopMargin kBottomMargin x y width : Int) (first : TCPLine)
    (hfirst : (commonTrackTCPLines da kItemBarButtons kTrackInfoBtnSize).head? = some first)
    (hmask : (kItemSyncLock ||| kItemMinimize) &&& kHighestBottomItem ≠ 0)
    (hbtn : 0 ≤ kTrackInfoBtnSize) (htop : 0 ≤ kTopMargin) (hbot : 0 ≤ kBottomMargin)
    (hrange : kTrackInfoBtnSize + kTrackInfoBtnSize + kTopMargin + kBottomMargin + 1 < 2 ^ 31) :
    HideTopItem
      (defaultCommonTrackTCPBottomLines kItemSyncLock kItemMinimize kTrackInfoBtnSize)
      kHighestBottomItem
      ⟨x, y, width,
        (MinimumTrackHeight (commonTrackTCPLines da kItemBarButtons kTrackInfoBtnSize)
          (defaultCommonTrackTCPBottomLines kItemSyncLock kItemMinimize kTrackInfoBtnSize)
          kTopMargin kBottomMargin : Int) - 1⟩
      ⟨x, y + 0, width, first.height⟩ 0 = some (decide (kTopMargin + kBottomMargin = 0)) ∧
    HideTopItem
      (defaultCommonTrackTCPBottomLines kItemSyncLock kItemMinimize kTrackInfoBtnSize)
      kHighestBottomItem
      ⟨x, y, width,
        (MinimumTrackHeight (commonTrackTCPLines da kItemBarButtons kTrackInfoBtnSize)
          (defaultCommonTrackTCPBottomLines kItemSyncLock kItemMinimize kTrackInfoBtnSize)
          kTopMargin kBottomMargin : Int) - 1 - (kTopMargin + kBottomMargin)⟩
      ⟨x, y + 0, width, first.height⟩ 0 = some true ∧
    (MinimumTrackHeight (commonTrackTCPLines da kItemBarButtons kTrackInfoBtnSize)
        (defaultCommonTrackTCPBottomLines kItemSyncLock kItemMinimize kTrackInfoBtnSize)
        kTopMargin kBottomMargin : Int) - 1 - (kTopMargin + kBottomMargin) =
      first.height + kTrackInfoBtnSize := by
  have hh : first.height = kTrackInfoBtnSize := by
    cases da <;> simp [commonTrackTCPLines] at hfirst <;> rw [← hfirst]
  rw [MinimumTrackHeight_default da kItemBarButtons kItemSyncLock kItemMinimize
    kTrackInfoBtnSize kTopMargin kBottomMargin (by omega) hrange]
  refine ⟨?_, ?_, by omega⟩
  · rw [HideTopItem_of_limit _ _ _ _ _ _ _
      (CalcBottomItemY_default kItemSyncLock kItemMinimize kHighestBottomItem
        kTrackInfoBtnSize _ hmask)]
    simp only [Option.some.injEq, decide_eq_decide, hh]
    omega
  · rw [HideTopItem_of_limit _ _ _ _ _ _ _
      (CalcBottomItemY_default kItemSyncLock kItemMinimize kHighestBottomItem
        kTrackInfoBtnSize _ hmask)]
    simp only [Option.some.injEq, decide_eq_true_eq, hh]
    omega

/-- An instance of the amended C8 with the EXPERIMENTAL_DA table, button
size 18 and margins 5 and 2: at height 43 the title line is shown, at
height 36 it is hidden. -/
theorem HideTopItem_below_MinimumTrackHeight_witness :
    HideTopItem (defaultCommonTrackTCPBottomLines 512 256 18) 256
      ⟨10, 20, 96,
        (MinimumTrackHeight (commonTrackTCPLines true 1 18)
          (defaultCommonTrackTCPBottomLines 512 256 18) 5 2 : Int) - 1⟩
      ⟨10, 20 + 0, 96, (TCPLine.mk 1 18 4 true).height⟩ 0 =
        some (decide ((5 : Int) + 2 = 0)) ∧
    HideTopItem (defaultCommonTrackTCPBottomLines 512 256 18) 256
      ⟨10, 20, 96,
        (MinimumTrackHeight (commonTrackTCPLines true 1 18)
          (defaultCommonTrackTCPBottomLines 512 256 18) 5 2 : Int) - 1 - (5 + 2)⟩
      ⟨10, 20 + 0, 96, (TCPLine.mk 1 18 4 true).height⟩ 0 = some true ∧
    (MinimumTrackHeight (commonTrackTCPLines true 1 18)
        (defaultCommonTrackTCPBottomLines 512 256 18) 5 2 : Int) - 1 - (5 + 2) =
      (TCPLine.mk 1 18 4 true).height + 18 :=
  HideTopItem_below_MinimumTrackHeight true 1 512 256 256 18 5 2 10 20 96 ⟨1, 18, 4, true⟩
    rfl (by decide) (by decide) (by decide) (by decide) (by decide)

/-- C9: for every top line list, DefaultTrackHeight is the maximum of the
baseline TrackView::DefaultHeight and kTopMargin + kBottomMargin +
totalTCPLines(topLines, true) + totalTCPLines(bottom lines, false) + 1.  The
baseline is a parameter that is not negative, and both values fit an int. -/
theorem DefaultTrackHeight_spec (bottomLines topLines : TCPLines)
    (kTopMargin kBottomMargin DefaultHeight : Int)
    (hbase : 0 ≤ DefaultHeight) (hbase2 : DefaultHeight < 2 ^ 31)
    (hneeded : kTopMargin + kBottomMargin + totalTCPLines topLines true +
      totalTCPLines bottomLines false + 1 < 2 ^ 31) :
    (DefaultTrackHeight bottomLines kTopMargin kBottomMargin DefaultHeight topLines : Int) =
      max DefaultHeight
        (kTopMargin + kBottomMargin + totalTCPLines topLines true +
          totalTCPLines bottomLines false + 1) := by
  unfold DefaultTrackHeight
  rw [toUnsigned_of_range _ (le_trans hbase (le_max_right _ _))
    (lt_trans (max_lt hneeded hbase2) (by norm_num)), max_comm]

/-- An instance of C9: the sample wave lines over the default bottom list
with margins 5 and 2 need 149, below the baseline 150. -/
theorem DefaultTrackHeight_spec_witness :
    DefaultTrackHeight (defaultCommonTrackTCPBottomLines 512 256 18) 5 2 150
      sampleWaveLines = 150 ∧
    (DefaultTrackHeight (defaultCommonTrackTCPBottomLines 512 256 18) 5 2 150
      sampleWaveLines : Int) =
      max 150 (5 + 2 + totalTCPLines sampleWaveLines true +
        totalTCPLines (defaultCommonTrackTCPBottomLines 512 256 18) false + 1) :=
  ⟨by decide,
   DefaultTrackHeight_spec (defaultCommonTrackTCPBottomLines 512 256 18) sampleWaveLines
    5 2 150 (by decide) (by decide) (by decide)⟩

/-- C10: for every panel rectangle and every top line list whose lines
have non-empty, pairwise disjoint item masks, DrawItems completes (the
highest bottom item being present in the common bottom list), and the
rectangle its top loop builds for each line has x = rect.x,
y = rect.y + CalcItemY(list, mask).first, width = rect.width and
height = CalcItemY(list, mask).second, drawn or not. -/
theorem DrawItems_top_agrees_CalcItemY (commonBottomLines : TCPLines)
    (kHighestBottomItem : Nat) (rect : wxRect) (topLines bottomLines : TCPLines)
    (hb : ∃ l ∈ commonBottomLines, l.items &&& kHighestBottomItem ≠ 0)
    (hne : ∀ l ∈ topLines, l.items ≠ 0)
    (hdisj : topLines.Pairwise (fun a b => a.items &&& b.items = 0)) :
    ∃ top bottom,
      DrawItems commonBottomLines kHighestBottomItem rect topLines bottomLines =
        some (top, bottom) ∧
      top.length = topLines.length ∧
      top.map (fun s => s.itemRect) =
        topLines.map (fun l => (⟨rect.x, rect.y + (CalcItemY topLines l.items).1, rect.width,
          (CalcItemY topLines l.items).2⟩ : wxRect)) := by
  obtain ⟨steps, hsteps, hmap⟩ := DrawItems_topPass_rects commonBottomLines
    kHighestBottomItem rect hb topLines [] hne (by simpa using hdisj)
  rw [extent_nil] at hsteps
  refine ⟨steps, DrawItems.bottomPass rect rect.height bottomLines, ?_, ?_, ?_⟩
  · simp [DrawItems, hsteps]
  · have := congrArg List.length hmap
    simpa using this
  · simpa using hmap

/-- An instance of C10: the sample wave lines in a panel of height 60,
where the lower lines are hidden and the rectangles still agree. -/
theorem DrawItems_top_agrees_CalcItemY_witness :
    ((∃ l ∈ defaultCommonTrackTCPBottomLines 512 256 18, l.items &&& 256 ≠ 0) ∧
      (∀ l ∈ sampleWaveLines, l.items ≠ 0) ∧
      sampleWaveLines.Pairwise (fun a b => a.items &&& b.items = 0)) ∧
    ∃ top bottom,
      DrawItems (defaultCommonTrackTCPBottomLines 512 256 18) 256 ⟨3, 7, 96, 60⟩
        sampleWaveLines (defaultCommonTrackTCPBottomLines 512 256 18) =
        some (top, bottom) ∧
      top.length = sampleWaveLines.length ∧
      top.map (fun s => s.itemRect) =
        sampleWaveLines.map (fun l =>
          (⟨(wxRect.mk 3 7 96 60).x,
            (wxRect.mk 3 7 96 60).y + (CalcItemY sampleWaveLines l.items).1,
            (wxRect.mk 3 7 96 60).width,
            (CalcItemY sampleWaveLines l.items).2⟩ : wxRect)) :=
  have hb : ∃ l ∈ defaultCommonTrackTCPBottomLines 512 256 18, l.items &&& 256 ≠ 0 :=
    ⟨⟨512 ||| 256, 18, 0, true⟩, by simp [defaultCommonTrackTCPBottomLines], by decide⟩
  have hne : ∀ l ∈ sampleWaveLines, l.items ≠ 0 := by decide
  have hdisj : sampleWaveLines.Pairwise (fun a b => a.items &&& b.items = 0) := by decide
  ⟨⟨hb, hne, hdisj⟩,
   DrawItems_top_agrees_CalcItemY (defaultCommonTrackTCPBottomLines 512 256 18) 256
    ⟨3, 7, 96, 60⟩ sampleWaveLines (defaultCommonTrackTCPBottomLines 512 256 18)
    hb hne hdisj⟩

/-- C11: for every panel rectangle and every bottom line list whose lines
have non-empty, pairwise disjoint item masks, CalcBottomItemY is defined at
the mask of every line, and the bottom loop of DrawItems calls the draw
function of each line that has one with the rectangle at
y = rect.y + CalcBottomItemY(list, mask, rect.height).first of height
CalcBottomItemY(list, mask, rect.height).second; whether a bottom line is
drawn depends only on its having a draw function, never on the panel
height or on HideTopItem. -/
theorem DrawItems_bottom_agrees_CalcBottomItemY (commonBottomLines : TCPLines)
    (kHighestBottomItem : Nat) (rect : wxRect) (topLines bottomLines : TCPLines)
    (hne : ∀ l ∈ bottomLines, l.items ≠ 0)
    (hdisj : bottomLines.Pairwise (fun a b => a.items &&& b.items = 0)) :
    (∀ l ∈ bottomLines, ∃ y h, CalcBottomItemY bottomLines l.items rect.height = some (y, h)) ∧
    DrawItems.bottomPass rect rect.height bottomLines =
      bottomLines.map (fun l =>
        if l.drawFunction then
          (CalcBottomItemY bottomLines l.items rect.height).map
            (fun r => (⟨rect.x, rect.y + r.1, rect.width, r.2⟩ : wxRect))
        else none) ∧
    (DrawItems.bottomPass rect rect.height bottomLines).map Option.isSome =
      bottomLines.map (fun l => l.drawFunction) ∧
    DrawItems commonBottomLines kHighestBottomItem rect topLines bottomLines =
      (DrawItems.topPass commonBottomLines kHighestBottomItem rect 0 topLines).map
        (fun top => (top, DrawItems.bottomPass rect rect.height bottomLines)) := by
  have hdef := CalcBottomItemY_own_mask bottomLines rect.height hne
  have hrects := DrawItems_bottomPass_rects rect rect.height bottomLines [] hne
    (by simpa using hdisj)
  rw [extent_nil, sub_zero, List.nil_append] at hrects
  refine ⟨hdef, hrects, ?_, ?_⟩
  · rw [hrects, List.map_map]
    apply List.map_congr_left
    intro l hl
    obtain ⟨y, h, hyh⟩ := hdef l hl
    cases hd : l.drawFunction <;> simp [hd, hyh]
  · unfold DrawItems
    cases DrawItems.topPass commonBottomLines kHighestBottomItem rect 0 topLines <;> rfl

/-- An instance of C11: the sample bottom lines in a panel of height 30,
shorter than the top lines need. -/
theorem DrawItems_bottom_agrees_CalcBottomItemY_witness :
    ((∀ l ∈ sampleBottomLines, l.items ≠ 0) ∧
      sampleBottomLines.Pairwise (fun a b => a.items &&& b.items = 0)) ∧
    ((∀ l ∈ sampleBottomLines,
        ∃ y h, CalcBottomItemY sampleBottomLines l.items (wxRect.mk 3 7 96 30).height =
          some (y, h)) ∧
    DrawItems.bottomPass ⟨3, 7, 96, 30⟩ (wxRect.mk 3 7 96 30).height sampleBottomLines =
      sampleBottomLines.map (fun l =>
        if l.drawFunction then
          (CalcBottomItemY sampleBottomLines l.items (wxRect.mk 3 7 96 30).height).map
            (fun r => (⟨(wxRect.mk 3 7 96 30).x, (wxRect.mk 3 7 96 30).y + r.1,
              (wxRect.mk 3 7 96 30).width, r.2⟩ : wxRect))
        else none) ∧
    (DrawItems.bottomPass ⟨3, 7, 96, 30⟩ (wxRect.mk 3 7 96 30).height sampleBottomLines).map
        Option.isSome = sampleBottomLines.map (fun l => l.drawFunction) ∧
    DrawItems sampleBottomLines 256 ⟨3, 7, 96, 30⟩ sampleWaveLines sampleBottomLines =
      (DrawItems.topPass sampleBottomLines 256 ⟨3, 7, 96, 30⟩ 0 sampleWaveLines).map
        (fun top => (top,
          DrawItems.bottomPass ⟨3, 7, 96, 30⟩ (wxRect.mk 3 7 96 30).height
            sampleBottomLines))) :=
  have hne : ∀ l ∈ sampleBottomLines, l.items ≠ 0 := by decide
  have hdisj : sampleBottomLines.Pairwise (fun a b => a.items &&& b.items = 0) := by decide
  ⟨⟨hne, hdisj⟩,
   DrawItems_bottom_agrees_CalcBottomItemY sampleBottomLines 256 ⟨3, 7, 96, 30⟩
    sampleWaveLines sampleBottomLines hne hdisj⟩

/-- C12: the wave track and note track line lists are the common list
followed by their own lines; for every base list, extension and mask that
meets a line of the base list, CalcItemY on base ++ extension equals
CalcItemY on base; hence the close box and title bar rectangles, computed
from the common list, have the y and height of the title line located in
the wave track list and in the note track list. -/
theorem CalcItemY_append_base (base ext : TCPLines) (iItem : Nat)
    (h : ∃ l ∈ base, l.items &&& iItem ≠ 0)
    (da : Bool) (c : Constants) (rect dest : wxRect) (hbar : c.kItemBarButtons ≠ 0) :
    CalcItemY (base ++ ext) iItem = CalcItemY base iItem ∧
    waveTrackTCPLines da c =
      commonTrackTCPLines da c.kItemBarButtons c.kTrackInfoBtnSize ++
        waveTrackExtraLines da c ∧
    noteTrackTCPLines da c =
      commonTrackTCPLines da c.kItemBarButtons c.kTrackInfoBtnSize ++
        noteTrackExtraLines da c ∧
    ∀ lines ∈ [waveTrackTCPLines da c, noteTrackTCPLines da c],
      (GetCloseBoxRect da c.kItemBarButtons c.kTrackInfoBtnSize rect dest).y =
        rect.y + (CalcItemY lines c.kItemBarButtons).1 ∧
      (GetCloseBoxRect da c.kItemBarButtons c.kTrackInfoBtnSize rect dest).height =
        (CalcItemY lines c.kItemBarButtons).2 ∧
      (GetTitleBarRect da c.kItemBarButtons c.kTrackInfoBtnSize rect dest).y =
        rect.y + (CalcItemY lines c.kItemBarButtons).1 ∧
      (GetTitleBarRect da c.kItemBarButtons c.kTrackInfoBtnSize rect dest).height =
        (CalcItemY lines c.kItemBarButtons).2 := by
  refine ⟨CalcItemY_append_of_match base ext iItem h, rfl, rfl, ?_⟩
  have hcommon : ∃ l ∈ commonTrackTCPLines da c.kItemBarButtons c.kTrackInfoBtnSize,
      l.items &&& c.kItemBarButtons ≠ 0 := by
    cases da
    · exact ⟨⟨c.kItemBarButtons, c.kTrackInfoBtnSize, 0, true⟩,
        by simp [commonTrackTCPLines], by simpa [Nat.and_self] using hbar⟩
    · exact ⟨⟨c.kItemBarButtons, c.kTrackInfoBtnSize, 4, true⟩,
        by simp [commonTrackTCPLines], by simpa [Nat.and_self] using hbar⟩
  intro lines hlines
  have hsame : CalcItemY lines c.kItemBarButtons =
      CalcItemY (commonTrackTCPLines da c.kItemBarButtons c.kTrackInfoBtnSize)
        c.kItemBarButtons := by
    simp only [List.mem_cons, List.mem_singleton, List.not_mem_nil, or_false] at hlines
    rcases hlines with rfl | rfl
    · exact CalcItemY_append_of_match _ _ _ hcommon
    · exact CalcItemY_append_of_match _ _ _ hcommon
  rw [hsame]
  exact ⟨rfl, rfl, rfl, rfl⟩

/-- An instance of C12: the gain slider (flag 16) of the sample wave lines
extended by the sample bottom lines, and the sample constants. -/
theorem CalcItemY_append_base_witness :
    ((∃ l ∈ sampleWaveLines, l.items &&& 16 ≠ 0) ∧ sampleConstants.kItemBarButtons ≠ 0) ∧
    (CalcItemY (sampleWaveLines ++ sampleBottomLines) 16 = CalcItemY sampleWaveLines 16 ∧
    waveTrackTCPLines false sampleConstants =
      commonTrackTCPLines false sampleConstants.kItemBarButtons
        sampleConstants.kTrackInfoBtnSize ++ waveTrackExtraLines false sampleConstants ∧
    noteTrackTCPLines false sampleConstants =
      commonTrackTCPLines false sampleConstants.kItemBarButtons
        sampleConstants.kTrackInfoBtnSize ++ noteTrackExtraLines false sampleConstants ∧
    ∀ lines ∈ [waveTrackTCPLines false sampleConstants, noteTrackTCPLines false sampleConstants],
      (GetCloseBoxRect false sampleConstants.kItemBarButtons sampleConstants.kTrackInfoBtnSize
          ⟨3, 7, 96, 150⟩ ⟨0, 0, 0, 0⟩).y =
        (wxRect.mk 3 7 96 150).y + (CalcItemY lines sampleConstants.kItemBarButtons).1 ∧
      (GetCloseBoxRect false sampleConstants.kItemBarButtons sampleConstants.kTrackInfoBtnSize
          ⟨3, 7, 96, 150⟩ ⟨0, 0, 0, 0⟩).height =
        (CalcItemY lines sampleConstants.kItemBarButtons).2 ∧
      (GetTitleBarRect false sampleConstants.kItemBarButtons sampleConstants.kTrackInfoBtnSize
          ⟨3, 7, 96, 150⟩ ⟨0, 0, 0, 0⟩).y =
        (wxRect.mk 3 7 96 150).y + (CalcItemY lines sampleConstants.kItemBarButtons).1 ∧
      (GetTitleBarRect false sampleConstants.kItemBarButtons sampleConstants.kTrackInfoBtnSize
          ⟨3, 7, 96, 150⟩ ⟨0, 0, 0, 0⟩).height =
        (CalcItemY lines sampleConstants.kItemBarButtons).2) :=
  have h : ∃ l ∈ sampleWaveLines, l.items &&& 16 ≠ 0 :=
    ⟨⟨16, 25, 5, true⟩, by simp [sampleWaveLines], by decide⟩
  have hbar : sampleConstants.kItemBarButtons ≠ 0 := by decide
  ⟨⟨h, hbar⟩,
   CalcItemY_append_base sampleWaveLines sampleBottomLines 16 h false sampleConstants
    ⟨3, 7, 96, 150⟩ ⟨0, 0, 0, 0⟩ hbar⟩

/-- C13: for every bottom line list with non-negative heights and extra
spaces and non-empty, pairwise disjoint masks, and every panel height, a
line a that comes before a line b in the list has a CalcBottomItemY offset
at least that of b (so the first entry has the largest offset), while its
CalcItemY offset on the same list is at most that of b. -/
theorem CalcBottomItemY_offsets_ordered (A B C : TCPLines) (a b : TCPLine) (height : Int)
    (hnn : ∀ l ∈ A ++ a :: (B ++ b :: C), 0 ≤ l.height ∧ 0 ≤ l.extraSpace)
    (hne : ∀ l ∈ A ++ a :: (B ++ b :: C), l.items ≠ 0)
    (hdisj : (A ++ a :: (B ++ b :: C)).Pairwise (fun p q => p.items &&& q.items = 0)) :
    ∃ ya yb,
      CalcBottomItemY (A ++ a :: (B ++ b :: C)) a.items height = some (ya, a.height) ∧
      CalcBottomItemY (A ++ a :: (B ++ b :: C)) b.items height = some (yb, b.height) ∧
      ya ≥ yb ∧
      (CalcItemY (A ++ a :: (B ++ b :: C)) a.items).1 ≤
        (CalcItemY (A ++ a :: (B ++ b :: C)) b.items).1 := by
  have hmema : a ∈ A ++ a :: (B ++ b :: C) := by simp
  have hmemb : b ∈ A ++ a :: (B ++ b :: C) := by simp
  have hla : a.items &&& a.items ≠ 0 := by rw [Nat.and_self]; exact hne a hmema
  have hlb : b.items &&& b.items ≠ 0 := by rw [Nat.and_self]; exact hne b hmemb
  have hprea : ∀ p ∈ A, p.items &&& a.items = 0 := fun p hp =>
    (List.pairwise_append.mp hdisj).2.2 p hp a (List.mem_cons_self _ _)
  have hsplit : A ++ a :: (B ++ b :: C) = (A ++ a :: B) ++ b :: C := by simp
  have hpreb : ∀ p ∈ A ++ a :: B, p.items &&& b.items = 0 := by
    intro p hp
    rw [hsplit] at hdisj
    exact (List.pairwise_append.mp hdisj).2.2 p hp b (List.mem_cons_self _ _)
  have hna := hnn a hmema
  have hnb := hnn b hmemb
  have hnB : 0 ≤ extent B :=
    extent_nonneg B (fun l hl => hnn l (by simp [hl]))
  have hext : extent (A ++ a :: B) = extent A + ((a.height + a.extraSpace) + extent B) := by
    rw [extent_append, extent_cons]
  refine ⟨height - extent A - (a.height + a.extraSpace),
    height - extent (A ++ a :: B) - (b.height + b.extraSpace),
    CalcBottomItemY_match a.items A a (B ++ b :: C) hprea hla height, ?_, ?_, ?_⟩
  · rw [hsplit]
    exact CalcBottomItemY_match b.items (A ++ a :: B) b C hpreb hlb height
  · rw [hext]
    omega
  · rw [CalcItemY_match a.items A a (B ++ b :: C) hprea hla, hsplit,
      CalcItemY_match b.items (A ++ a :: B) b C hpreb hlb, hext]
    show extent A ≤ extent A + ((a.height + a.extraSpace) + extent B)
    omega

/-- An instance of C13: the two sample bottom lines, in a panel of height
200: the first has offset 182, the second 169. -/
theorem CalcBottomItemY_offsets_ordered_witness :
    ((∀ l ∈ [] ++ TCPLine.mk 512 18 0 true :: ([] ++ TCPLine.mk 256 10 3 true :: []),
        0 ≤ l.height ∧ 0 ≤ l.extraSpace) ∧
      (∀ l ∈ [] ++ TCPLine.mk 512 18 0 true :: ([] ++ TCPLine.mk 256 10 3 true :: []),
        l.items ≠ 0) ∧
      ([] ++ TCPLine.mk 512 18 0 true :: ([] ++ TCPLine.mk 256 10 3 true :: [])).Pairwise
        (fun (p q : TCPLine) => p.items &&& q.items = 0)) ∧
    ∃ ya yb,
      CalcBottomItemY ([] ++ TCPLine.mk 512 18 0 true :: ([] ++ TCPLine.mk 256 10 3 true :: []))
        (TCPLine.mk 512 18 0 true).items 200 = some (ya, (TCPLine.mk 512 18 0 true).height) ∧
      CalcBottomItemY ([] ++ TCPLine.mk 512 18 0 true :: ([] ++ TCPLine.mk 256 10 3 true :: []))
        (TCPLine.mk 256 10 3 true).items 200 = some (yb, (TCPLine.mk 256 10 3 true).height) ∧
      ya ≥ yb ∧
      (CalcItemY ([] ++ TCPLine.mk 512 18 0 true :: ([] ++ TCPLine.mk 256 10 3 true :: []))
          (TCPLine.mk 512 18 0 true).items).1 ≤
        (CalcItemY ([] ++ TCPLine.mk 512 18 0 true :: ([] ++ TCPLine.mk 256 10 3 true :: []))
          (TCPLine.mk 256 10 3 true).items).1 :=
  have hnn : ∀ l ∈ [] ++ TCPLine.mk 512 18 0 true :: ([] ++ TCPLine.mk 256 10 3 true :: []),
      0 ≤ l.height ∧ 0 ≤ l.extraSpace := by decide
  have hne : ∀ l ∈ [] ++ TCPLine.mk 512 18 0 true :: ([] ++ TCPLine.mk 256 10 3 true :: []),
      l.items ≠ 0 := by decide
  have hdisj : ([] ++ TCPLine.mk 512 18 0 true ::
      ([] ++ TCPLine.mk 256 10 3 true :: [])).Pairwise
      (fun (p q : TCPLine) => p.items &&& q.items = 0) := by decide
  ⟨⟨hnn, hne, hdisj⟩,
   CalcBottomItemY_offsets_ordered [] [] [] ⟨512, 18, 0, true⟩ ⟨256, 10, 3, true⟩ 200
    hnn hne hdisj⟩

/-- C14 (as stated, refuted): on the scenario list with the flags 1, 2, 4
and 8, CalcItemY at maskC = 4 returns (32, 15), not (30, 15): the two lines
before the match extend over 20 + 0 and 10 + 2. -/
theorem CalcItemY_scenario_counterexample :
    CalcItemY (scenarioLines 1 2 4 8) 4 = (32, 15) ∧
    CalcItemY (scenarioLines 1 2 4 8) 4 ≠ (30, 15) := by
  decide

/-- C14 (amended): on the scenario list whose masks are the single flags
2^i, 2^j, 2^k and 2^l, with maskC different from maskA and maskB,
CalcItemY at maskC returns (32, 15). -/
theorem CalcItemY_scenario (i j k l : Nat) (hik : i ≠ k) (hjk : j ≠ k) :
    CalcItemY (scenarioLines (2 ^ i) (2 ^ j) (2 ^ k) (2 ^ l)) (2 ^ k) = (32, 15) := by
  have h := CalcItemY_match (2 ^ k) [⟨2 ^ i, 20, 0, true⟩, ⟨2 ^ j, 10, 2, true⟩]
    ⟨2 ^ k ||| 2 ^ l, 15, 0, true⟩ []
    (by
      intro p hp
      simp only [List.mem_cons, List.mem_singleton, List.not_mem_nil, or_false] at hp
      rcases hp with rfl | rfl
      · exact two_pow_and_two_pow_of_ne i k hik
      · exact two_pow_and_two_pow_of_ne j k hjk)
    (or_two_pow_and_self_ne_zero k l)
  have he : extent [⟨2 ^ i, 20, 0, true⟩, ⟨2 ^ j, 10, 2, true⟩] = 32 := by
    simp [extent]
  rw [he] at h
  exact h

/-- An instance of the amended C14 with the flags 1, 2, 4 and 8. -/
theorem CalcItemY_scenario_witness :
    ((0 : Nat) ≠ 2 ∧ (1 : Nat) ≠ 2) ∧
    CalcItemY (scenarioLines (2 ^ 0) (2 ^ 1) (2 ^ 2) (2 ^ 3)) (2 ^ 2) = (32, 15) :=
  ⟨⟨by decide, by decide⟩, CalcItemY_scenario 0 1 2 3 (by decide) (by decide)⟩

/-- C15 (as stated, refuted): on the scenario list with the flags 1, 2, 4
and 8, totalTCPLines returns 47 with omitLastExtra true and 47 with
omitLastExtra false, not 45: the extra space 2 of the second line counts. -/
theorem totalTCPLines_scenario_counterexample :
    totalTCPLines (scenarioLines 1 2 4 8) true = 47 ∧
    totalTCPLines (scenarioLines 1 2 4 8) false = 47 ∧
    totalTCPLines (scenarioLines 1 2 4 8) true ≠ 45 ∧
    totalTCPLines (scenarioLines 1 2 4 8) false ≠ 45 := by
  decide

/-- C15 (amended): on the scenario list, whatever the four masks,
totalTCPLines returns 47 with omitLastExtra true and 47 with omitLastExtra
false. -/
theorem totalTCPLines_scenario (maskA maskB maskC maskD : Nat) :
    totalTCPLines (scenarioLines maskA maskB maskC maskD) true = 47 ∧
    totalTCPLines (scenarioLines maskA maskB maskC maskD) false = 47 := by
  constructor <;> rfl

/-- C16 (as stated, refuted): on the sample wave lines, where mute (4) and
solo (8) share a line, with the solo button enabled and a panel of width
96, GetMuteSoloRect gives the widths 49 and 48, whose sum is 97 and not
96 - TitleSoloBorderOverlap = 95. -/
theorem GetMuteSoloRect_widths_counterexample :
    (GetMuteSoloRect sampleWaveLines 4 8 18 ⟨0, 0, 96, 150⟩ ⟨0, 0, 0, 0⟩ false true).width =
      49 ∧
    (GetMuteSoloRect sampleWaveLines 4 8 18 ⟨0, 0, 96, 150⟩ ⟨0, 0, 0, 0⟩ true true).width =
      48 ∧
    (GetMuteSoloRect sampleWaveLines 4 8 18 ⟨0, 0, 96, 150⟩ ⟨0, 0, 0, 0⟩ false true).width +
      (GetMuteSoloRect sampleWaveLines 4 8 18 ⟨0, 0, 96, 150⟩ ⟨0, 0, 0, 0⟩ true true).width ≠
      (wxRect.mk 0 0 96 150).width - TitleSoloBorderOverlap := by
  decide

/-- C16 (amended): for every panel rectangle and every line list in which
the first line that carries mute is also the first line that carries solo,
with the solo button enabled, the widths of the rectangles that
GetMuteSoloRect returns for mute and for solo sum to rect.width plus
TitleSoloBorderOverlap: the mute width is rect.width / 2 + 1 and the solo
width is rect.width minus the mute width plus the overlap. -/
theorem GetMuteSoloRect_narrow_widths (pre post : TCPLines) (l : TCPLine)
    (kItemMute kItemSolo : Nat) (kTrackInfoBtnSize : Int) (rect dest : wxRect)
    (hpreM : ∀ p ∈ pre, p.items &&& kItemMute = 0)
    (hpreS : ∀ p ∈ pre, p.items &&& kItemSolo = 0)
    (hlM : l.items &&& kItemMute ≠ 0) (hlS : l.items &&& kItemSolo ≠ 0) :
    (GetMuteSoloRect (pre ++ l :: post) kItemMute kItemSolo kTrackInfoBtnSize rect dest
        false true).width = rect.width.tdiv 2 + 1 ∧
    (GetMuteSoloRect (pre ++ l :: post) kItemMute kItemSolo kTrackInfoBtnSize rect dest
        true true).width = rect.width - (rect.width.tdiv 2 + 1) + TitleSoloBorderOverlap ∧
    (GetMuteSoloRect (pre ++ l :: post) kItemMute kItemSolo kTrackInfoBtnSize rect dest
        false true).width +
      (GetMuteSoloRect (pre ++ l :: post) kItemMute kItemSolo kTrackInfoBtnSize rect dest
        true true).width = rect.width + TitleSoloBorderOverlap := by
  have hs := GetMuteSoloRect_bSameRow_of_shared pre post l kItemMute kItemSolo
    hpreM hpreS hlM hlS
  have hm : (GetMuteSoloRect (pre ++ l :: post) kItemMute kItemSolo kTrackInfoBtnSize rect dest
      false true).width = rect.width.tdiv 2 + 1 := by
    simp [GetMuteSoloRect, GetMuteSoloRect.bNarrow, hs, GetNarrowMuteHorizontalBounds]
  have hso : (GetMuteSoloRect (pre ++ l :: post) kItemMute kItemSolo kTrackInfoBtnSize rect dest
      true true).width = rect.width - (rect.width.tdiv 2 + 1) + TitleSoloBorderOverlap := by
    simp [GetMuteSoloRect, GetMuteSoloRect.bNarrow, hs, GetNarrowSoloHorizontalBounds,
      GetNarrowMuteHorizontalBounds]
  refine ⟨hm, hso, ?_⟩
  rw [hm, hso]
  ring

/-- An instance of the amended C16: the note track lines of the sample
constants, where the line after the title carries mute and solo, and a
panel of odd width 95: the widths are 48 and 48. -/
theorem GetMuteSoloRect_narrow_widths_witness :
    ((∀ p ∈ [TCPLine.mk 1 18 0 true], p.items &&& 4 = 0) ∧
      (∀ p ∈ [TCPLine.mk 1 18 0 true], p.items &&& 8 = 0) ∧
      (TCPLine.mk 12 19 0 true).items &&& 4 ≠ 0 ∧ (TCPLine.mk 12 19 0 true).items &&& 8 ≠ 0) ∧
    ((GetMuteSoloRect ([TCPLine.mk 1 18 0 true] ++ TCPLine.mk 12 19 0 true ::
          [TCPLine.mk 128 72 0 true, TCPLine.mk 64 25 5 true]) 4 8 18
        ⟨0, 0, 95, 150⟩ ⟨0, 0, 0, 0⟩ false true).width =
        (wxRect.mk 0 0 95 150).width.tdiv 2 + 1 ∧
    (GetMuteSoloRect ([TCPLine.mk 1 18 0 true] ++ TCPLine.mk 12 19 0 true ::
          [TCPLine.mk 128 72 0 true, TCPLine.mk 64 25 5 true]) 4 8 18
        ⟨0, 0, 95, 150⟩ ⟨0, 0, 0, 0⟩ true true).width =
        (wxRect.mk 0 0 95 150).width - ((wxRect.mk 0 0 95 150).width.tdiv 2 + 1) +
          TitleSoloBorderOverlap ∧
    (GetMuteSoloRect ([TCPLine.mk 1 18 0 true] ++ TCPLine.mk 12 19 0 true ::
          [TCPLine.mk 128 72 0 true, TCPLine.mk 64 25 5 true]) 4 8 18
        ⟨0, 0, 95, 150⟩ ⟨0, 0, 0, 0⟩ false true).width +
      (GetMuteSoloRect ([TCPLine.mk 1 18 0 true] ++ TCPLine.mk 12 19 0 true ::
          [TCPLine.mk 128 72 0 true, TCPLine.mk 64 25 5 true]) 4 8 18
        ⟨0, 0, 95, 150⟩ ⟨0, 0, 0, 0⟩ true true).width =
        (wxRect.mk 0 0 95 150).width + TitleSoloBorderOverlap) :=
  have h1 : ∀ p ∈ [TCPLine.mk 1 18 0 true], p.items &&& 4 = 0 := by decide
  have h2 : ∀ p ∈ [TCPLine.mk 1 18 0 true], p.items &&& 8 = 0 := by decide
  have h3 : (TCPLine.mk 12 19 0 true).items &&& 4 ≠ 0 := by decide
  have h4 : (TCPLine.mk 12 19 0 true).items &&& 8 ≠ 0 := by decide
  ⟨⟨h1, h2, h3, h4⟩,
   GetMuteSoloRect_narrow_widths [⟨1, 18, 0, true⟩]
    [⟨128, 72, 0, true⟩, ⟨64, 25, 5, true⟩] ⟨12, 19, 0, true⟩ 4 8 18
    ⟨0, 0, 95, 150⟩ ⟨0, 0, 0, 0⟩ h1 h2 h3 h4⟩

/-- C17 (as stated, refuted): on the sample wave lines CalcItemY resolves
mute (4) and solo (8) to the same offset 18, yet with the has-solo-button
flag false GetMuteSoloRect produces the wide bounds (x = 15, width = 66)
and not the narrow ones (x = 0, width = 49). -/
theorem GetMuteSoloRect_narrow_counterexample :
    (CalcItemY sampleWaveLines 4).1 = (CalcItemY sampleWaveLines 8).1 ∧
    GetMuteSoloRect.bNarrow sampleWaveLines 4 8 false = false ∧
    GetMuteSoloRect sampleWaveLines 4 8 18 ⟨0, 0, 96, 150⟩ ⟨0, 0, 0, 0⟩ false false =
      ⟨15, 18, 66, 19⟩ ∧
    GetWideMuteSoloHorizontalBounds 18 ⟨0, 0, 96, 150⟩ ⟨0, 18, 0, 19⟩ = ⟨15, 18, 66, 19⟩ ∧
    GetNarrowMuteHorizontalBounds ⟨0, 0, 96, 150⟩ ⟨0, 18, 0, 19⟩ = ⟨0, 18, 49, 19⟩ := by
  decide

/-- C17 (amended): for every line list, panel rectangle and value of the
has-solo-button flag, GetMuteSoloRect produces the narrow horizontal bounds
if and only if CalcItemY resolves the mute mask and the solo mask to the
same offset and the has-solo-button flag is true; otherwise (different
offsets, or no solo button) it produces the wide bounds. -/
theorem GetMuteSoloRect_narrow_iff (lines : TCPLines) (kItemMute kItemSolo : Nat)
    (kTrackInfoBtnSize : Int) (rect dest : wxRect) (solo bHasSoloButton : Bool) :
    (GetMuteSoloRect.bNarrow lines kItemMute kItemSolo bHasSoloButton =
      decide ((CalcItemY lines kItemMute).1 = (CalcItemY lines kItemSolo).1 ∧
        bHasSoloButton = true)) ∧
    ((GetMuteSoloRect lines kItemMute kItemSolo kTrackInfoBtnSize rect dest solo
        bHasSoloButton).x,
      (GetMuteSoloRect lines kItemMute kItemSolo kTrackInfoBtnSize rect dest solo
        bHasSoloButton).width) =
      if (CalcItemY lines kItemMute).1 = (CalcItemY lines kItemSolo).1 ∧
          bHasSoloButton = true then
        if solo then
          ((GetNarrowSoloHorizontalBounds rect dest).x,
            (GetNarrowSoloHorizontalBounds rect dest).width)
        else
          ((GetNarrowMuteHorizontalBounds rect dest).x,
            (GetNarrowMuteHorizontalBounds rect dest).width)
      else
        ((GetWideMuteSoloHorizontalBounds kTrackInfoBtnSize rect dest).x,
          (GetWideMuteSoloHorizontalBounds kTrackInfoBtnSize rect dest).width) := by
  constructor
  · simp [GetMuteSoloRect.bNarrow, GetMuteSoloRect.bSameRow, Bool.decide_and]
  · by_cases hs : (CalcItemY lines kItemMute).1 = (CalcItemY lines kItemSolo).1 <;>
      cases bHasSoloButton <;> cases solo <;>
      simp [GetMuteSoloRect, GetMuteSoloRect.bNarrow, GetMuteSoloRect.bSameRow, hs,
        GetNarrowSoloHorizontalBounds, GetNarrowMuteHorizontalBounds,
        GetWideMuteSoloHorizontalBounds]

/-- C18 (as stated, refuted): with both line lists empty and margins 5 and
2, MinimumTrackHeight is 8 and the height that DefaultTrackHeight needs
(seen with baseline 0) is 8, not 5 + 2 = 7. -/
theorem MinimumTrackHeight_empty_counterexample :
    MinimumTrackHeight [] [] 5 2 = 8 ∧
    DefaultTrackHeight [] 5 2 0 [] = 8 ∧
    (MinimumTrackHeight [] [] 5 2 : Int) ≠ 5 + 2 ∧
    (DefaultTrackHeight [] 5 2 0 [] : Int) ≠ 5 + 2 := by
  decide

/-- C18 (amended): when the top line list and the bottom line list are both
empty, both total extents are 0, MinimumTrackHeight is kTopMargin +
kBottomMargin + 1 (as unsigned), and the height that DefaultTrackHeight
needs before the floor is kTopMargin + kBottomMargin + 1. -/
theorem MinimumTrackHeight_empty (kTopMargin kBottomMargin DefaultHeight : Int) :
    totalTCPLines [] true = 0 ∧ totalTCPLines [] false = 0 ∧
    MinimumTrackHeight [] [] kTopMargin kBottomMargin =
      toUnsigned (kTopMargin + kBottomMargin + 1) ∧
    kTopMargin + kBottomMargin + totalTCPLines [] true + totalTCPLines [] false + 1 =
      kTopMargin + kBottomMargin + 1 ∧
    DefaultTrackHeight [] kTopMargin kBottomMargin DefaultHeight [] =
      toUnsigned (max (kTopMargin + kBottomMargin + 1) DefaultHeight) := by
  have h1 : totalTCPLines [] true = 0 := rfl
  have h2 : totalTCPLines [] false = 0 := rfl
  refine ⟨h1, h2, ?_, ?_, ?_⟩
  · simp [MinimumTrackHeight]
  · rw [h1, h2]
    ring
  · simp [DefaultTrackHeight, h1, h2]

/-- C19: for every top line list and bottom line list with non-negative
heights and extra spaces, where the bottom list has a line that meets
kHighestBottomItem, and every panel rectangle whose height is at least
totalTCPLines(top, true) + totalTCPLines(bottom, false) + 1, the top loop of
DrawItems completes, HideTopItem with allowance 0 is false for every item
rectangle it builds, and a top line is drawn exactly when it has a draw
function. -/
theorem DrawItems_nothing_hidden_at_needed_height (bottomLines topLines : TCPLines)
    (kHighestBottomItem : Nat) (rect : wxRect)
    (hnnT : ∀ l ∈ topLines, 0 ≤ l.height ∧ 0 ≤ l.extraSpace)
    (hnnB : ∀ l ∈ bottomLines, 0 ≤ l.height ∧ 0 ≤ l.extraSpace)
    (hb : ∃ l ∈ bottomLines, l.items &&& kHighestBottomItem ≠ 0)
    (hH : totalTCPLines topLines true + totalTCPLines bottomLines false + 1 ≤ rect.height) :
    ∃ steps, DrawItems.topPass bottomLines kHighestBottomItem rect 0 topLines = some steps ∧
      steps.length = topLines.length ∧
      (∀ s ∈ steps, HideTopItem bottomLines kHighestBottomItem rect s.itemRect 0 = some false) ∧
      steps.map (fun s => s.drawn) = topLines.map (fun l => l.drawFunction) := by
  obtain ⟨pre, l, post, heq, hpre, hl⟩ := exists_first_match kHighestBottomItem bottomLines hb
  subst heq
  have hc := CalcBottomItemY_match kHighestBottomItem pre l post hpre hl rect.height
  have hpost : 0 ≤ extent post :=
    extent_nonneg post (fun q hq => hnnB q (by simp [hq]))
  have hbot : totalTCPLines (pre ++ l :: post) false =
      extent pre + ((l.height + l.extraSpace) + extent post) := by
    rw [totalTCPLines_false, extent_append, extent_cons]
  rw [hbot] at hH
  have hfit : 0 + totalTCPLines topLines true <
      rect.height - extent pre - (l.height + l.extraSpace) := by omega
  have hnone := topSteps_none_hidden rect _ topLines hnnT 0 hfit
  refine ⟨_, DrawItems_topPass_eq_topSteps _ _ rect _ _ hc topLines 0,
    topSteps_length _ _ _ _, ?_, hnone.2⟩
  intro s hs
  rw [HideTopItem_of_limit _ _ _ _ _ _ _ hc, Option.some.injEq, decide_eq_false_iff_not]
  exact hnone.1 s hs

/-- An instance of C19: the sample wave lines over the sample bottom lines
need 123 + 31 + 1 = 155; the panel has height 155. -/
theorem DrawItems_nothing_hidden_at_needed_height_witness :
    ((∀ l ∈ sampleWaveLines, 0 ≤ l.height ∧ 0 ≤ l.extraSpace) ∧
      (∀ l ∈ sampleBottomLines, 0 ≤ l.height ∧ 0 ≤ l.extraSpace) ∧
      (∃ l ∈ sampleBottomLines, l.items &&& 256 ≠ 0) ∧
      totalTCPLines sampleWaveLines true + totalTCPLines sampleBottomLines false + 1 ≤
        (wxRect.mk 3 7 96 155).height) ∧
    ∃ steps, DrawItems.topPass sampleBottomLines 256 ⟨3, 7, 96, 155⟩ 0 sampleWaveLines =
        some steps ∧
      steps.length = sampleWaveLines.length ∧
      (∀ s ∈ steps, HideTopItem sampleBottomLines 256 ⟨3, 7, 96, 155⟩ s.itemRect 0 =
        some false) ∧
      steps.map (fun s => s.drawn) = sampleWaveLines.map (fun l => l.drawFunction) :=
  have hnnT : ∀ l ∈ sampleWaveLines, 0 ≤ l.height ∧ 0 ≤ l.extraSpace := by decide
  have hnnB : ∀ l ∈ sampleBottomLines, 0 ≤ l.height ∧ 0 ≤ l.extraSpace := by decide
  have hb : ∃ l ∈ sampleBottomLines, l.items &&& 256 ≠ 0 :=
    ⟨⟨256, 10, 3, true⟩, by simp [sampleBottomLines], by decide⟩
  have hH : totalTCPLines sampleWaveLines true + totalTCPLines sampleBottomLines false + 1 ≤
      (wxRect.mk 3 7 96 155).height := by decide
  ⟨⟨hnnT, hnnB, hb, hH⟩,
   DrawItems_nothing_hidden_at_needed_height sampleBottomLines sampleWaveLines 256
    ⟨3, 7, 96, 155⟩ hnnT hnnB hb hH⟩

/-- C20: for every panel rectangle and every top line list with
non-negative heights and extra spaces (the highest bottom item being
present in the common bottom list), the top loop of DrawItems completes;
if HideTopItem with allowance 0 is true for the rectangle it builds for
line i, it is true for the rectangle of every later line j > i; and if a
later line j is drawn, every earlier line i that has a draw function is
drawn, so the drawn lines form a prefix of the lines with a draw
function. -/
theorem DrawItems_hidden_lines_form_suffix (bottomLines topLines : TCPLines)
    (kHighestBottomItem : Nat) (rect : wxRect)
    (hnn : ∀ l ∈ topLines, 0 ≤ l.height ∧ 0 ≤ l.extraSpace)
    (hb : ∃ l ∈ bottomLines, l.items &&& kHighestBottomItem ≠ 0) :
    ∃ steps, DrawItems.topPass bottomLines kHighestBottomItem rect 0 topLines = some steps ∧
      steps.length = topLines.length ∧
      (∀ (i j : Nat) (hi : i < steps.length) (hj : j < steps.length), i < j →
        HideTopItem bottomLines kHighestBottomItem rect (steps.get ⟨i, hi⟩).itemRect 0 =
          some true →
        HideTopItem bottomLines kHighestBottomItem rect (steps.get ⟨j, hj⟩).itemRect 0 =
          some true) ∧
      (∀ (i j : Nat) (hi : i < steps.length) (hj : j < steps.length)
        (hl : i < topLines.length), i < j →
        (topLines.get ⟨i, hl⟩).drawFunction = true →
        (steps.get ⟨j, hj⟩).drawn = true → (steps.get ⟨i, hi⟩).drawn = true) := by
  obtain ⟨pre, l, post, heq, hpre, hl⟩ := exists_first_match kHighestBottomItem bottomLines hb
  subst heq
  have hc := CalcBottomItemY_match kHighestBottomItem pre l post hpre hl rect.height
  have hlen := topSteps_length rect (rect.height - extent pre - (l.height + l.extraSpace))
    topLines 0
  refine ⟨_, DrawItems_topPass_eq_topSteps _ _ rect _ _ hc topLines 0, hlen, ?_, ?_⟩
  · intro i j hi hj hij
    have hpw := List.pairwise_iff_getElem.mp
      (topSteps_pairwise_bottom rect (rect.height - extent pre - (l.height + l.extraSpace))
        topLines hnn 0) i j hi hj hij
    rw [HideTopItem_of_limit _ _ _ _ _ _ _ hc, HideTopItem_of_limit _ _ _ _ _ _ _ hc]
    simp only [List.get_eq_getElem, Option.some.injEq, decide_eq_true_eq]
    intro h1
    omega
  · intro i j hi hj hli hij
    have hzlen : (topLines.zip
        (topSteps rect (rect.height - extent pre - (l.height + l.extraSpace)) 0
          topLines)).length = topLines.length := by
      rw [List.length_zip, hlen, min_self]
    have hpw := List.pairwise_iff_getElem.mp
      (topSteps_zip_pairwise rect (rect.height - extent pre - (l.height + l.extraSpace))
        topLines hnn 0) i j (by omega) (by omega) hij
    simp only [List.getElem_zip] at hpw
    simpa only [List.get_eq_getElem] using hpw

/-- An instance of C20: the sample wave lines in a panel of height 60 over
the default bottom list; the title and mute/solo lines are drawn, the
lines from the gain slider on are hidden. -/
theorem DrawItems_hidden_lines_form_suffix_witness :
    ((∀ l ∈ sampleWaveLines, 0 ≤ l.height ∧ 0 ≤ l.extraSpace) ∧
      (∃ l ∈ defaultCommonTrackTCPBottomLines 512 256 18, l.items &&& 256 ≠ 0)) ∧
    ∃ steps, DrawItems.topPass (defaultCommonTrackTCPBottomLines 512 256 18) 256
        ⟨3, 7, 96, 60⟩ 0 sampleWaveLines = some steps ∧
      steps.length = sampleWaveLines.length ∧
      (∀ (i j : Nat) (hi : i < steps.length) (hj : j < steps.length), i < j →
        HideTopItem (defaultCommonTrackTCPBottomLines 512 256 18) 256 ⟨3, 7, 96, 60⟩
          (steps.get ⟨i, hi⟩).itemRect 0 = some true →
        HideTopItem (defaultCommonTrackTCPBottomLines 512 256 18) 256 ⟨3, 7, 96, 60⟩
          (steps.get ⟨j, hj⟩).itemRect 0 = some true) ∧
      (∀ (i j : Nat) (hi : i < steps.length) (hj : j < steps.length)
        (hl : i < sampleWaveLines.length), i < j →
        (sampleWaveLines.get ⟨i, hl⟩).drawFunction = true →
        (steps.get ⟨j, hj⟩).drawn = true → (steps.get ⟨i, hi⟩).drawn = true) :=
  have hnn : ∀ l ∈ sampleWaveLines, 0 ≤ l.height ∧ 0 ≤ l.extraSpace := by decide
  have hb : ∃ l ∈ defaultCommonTrackTCPBottomLines 512 256 18, l.items &&& 256 ≠ 0 :=
    ⟨⟨512 ||| 256, 18, 0, true⟩, by simp [defaultCommonTrackTCPBottomLines], by decide⟩
  ⟨⟨hnn, hb⟩,
   DrawItems_hidden_lines_form_suffix (defaultCommonTrackTCPBottomLines 512 256 18)
    sampleWaveLines 256 ⟨3, 7, 96, 60⟩ hnn hb⟩

end TrackInfo
